import Mathlib

/-!
Verification development for the outbound email campaign engine:
the deliverability-aware scheduler (services/api/shared/scheduling.py,
services/api/tasks/launch.py, services/api/tasks/retry_failed.py),
the dispatcher worker (services/campaign-runner/main.py, db.py)
and the completion reconciler (services/api/routers/campaigns.py).

Shallow embedding conventions:
* Instants are natural numbers of milliseconds since a reference epoch that
  falls on a Monday 00:00 in the configured IANA zone.  The source stores
  UTC datetimes and converts to the configured zone for all working-hours
  arithmetic; with a fixed zone offset those conversions are a constant
  shift, so we work directly in local milliseconds (DST transitions are
  outside the scope of the claims treated here).
* Python `datetime.weekday()` gives Monday = 0 .. Sunday = 6, matching
  `t / dayMs % 7` for our Monday-based epoch.
* Randomness (jitter) and the external AI / transmission calls are oracles
  passed in as explicit function arguments.
* The Supabase store is a record of lists; a conditional `update ... eq`
  becomes a map over the list and "affected a row" becomes a `List.any`.
-/

namespace Ozl

/-- Milliseconds in one hour. -/
def hourMs : Nat := 3600000

/-- Milliseconds in one day. -/
def dayMs : Nat := 86400000

/-- Python `zoned.weekday()` for an instant in local milliseconds
(Monday = 0 .. Sunday = 6, epoch is a Monday). -/
def weekday (t : Nat) : Nat := t / dayMs % 7

/-- Python `zoned.hour` for an instant in local milliseconds. -/
def hourOf (t : Nat) : Nat := t % dayMs / hourMs

/-- Python `zoned.replace(hour=0, minute=0, second=0, microsecond=0)`:
midnight of the instant's local day. -/
def startOfDay (t : Nat) : Nat := t / dayMs * dayMs

/-- The `while next_day.weekday() >= 5: next_day += timedelta(days=1)` loop
of `next_weekday_start`, written with explicit fuel.  The loop advances at
most two days (Saturday, Sunday), so any fuel of at least 3 computes the
loop's result; the callers pass 7. -/
def advanceWeekend : Nat → Nat → Nat
  | 0, d => d
  | f + 1, d => if d / dayMs % 7 ≥ 5 then advanceWeekend f (d + dayMs) else d

/-- `next_weekday_start(zoned_time, timezone, working_hour_start, skip_weekends)`
from scheduling.py: midnight after the instant's day, advanced past a
weekend when `skip_weekends`, at `working_hour_start` o'clock local. -/
def next_weekday_start (t : Nat) (working_hour_start : Nat) (skip_weekends : Bool) : Nat :=
  let next_day := startOfDay t + dayMs
  let next_day := if skip_weekends then advanceWeekend 7 next_day else next_day
  next_day + working_hour_start * hourMs

/-- `get_start_time_in_timezone(timezone, working_hour_start, working_hour_end,
skip_weekends)` from scheduling.py, with "now" made an explicit argument.
The final branch recreates the datetime at second granularity, dropping
microseconds; in milliseconds that truncates to a whole second. -/
def get_start_time_in_timezone (now : Nat) (working_hour_start working_hour_end : Nat)
    (skip_weekends : Bool) : Nat :=
  if skip_weekends ∧ weekday now ≥ 5 then
    next_weekday_start now working_hour_start skip_weekends
  else if hourOf now < working_hour_start then
    startOfDay now + working_hour_start * hourMs
  else if hourOf now ≥ working_hour_end then
    next_weekday_start now working_hour_start skip_weekends
  else
    now / 1000 * 1000

/-- `adjust_to_working_hours(candidate_time, timezone, working_hour_end,
working_hour_start, skip_weekends)` from scheduling.py.  Note there is no
branch for a candidate before `working_hour_start`: only the weekend check
and the `candidate_time >= boundary_end` check reschedule a candidate. -/
def adjust_to_working_hours (candidate_time : Nat)
    (working_hour_end working_hour_start : Nat) (skip_weekends : Bool) : Nat :=
  if skip_weekends ∧ weekday candidate_time ≥ 5 then
    next_weekday_start candidate_time working_hour_start skip_weekends
  else if startOfDay candidate_time + working_hour_end * hourMs ≤ candidate_time then
    next_weekday_start candidate_time working_hour_start skip_weekends
  else
    candidate_time

/-! ## The schedule planner

The per-item loop shared by `process_launch_task` (launch.py lines 126-183)
and `process_retry_failed_task` (retry_failed.py lines 110-157).  Both read
`Config.WORKING_HOUR_START`, `Config.WORKING_HOUR_END`,
`Config.INTERVAL_MINUTES` and the jitter bound, build `DOMAIN_CONFIG` with
`generate_domain_config`, and thread three pieces of mutable state:
`domain_last_scheduled`, `domain_current_time` and `round_robin_index`. -/

/-- Mirror of `services/api/config.py` `Config` (the fields the planner
reads).  `INTERVAL_MS` stands for `Config.INTERVAL_MINUTES * 60 * 1000`
(`interval_ms` in the tasks).  `DISABLE_WORKING_HOURS` is carried exactly as
the source has it available on `Config`; the launch/retry tasks never read
it (only the campaign-runner's `is_working_hours` does). -/
structure Config where
  DISABLE_WORKING_HOURS : Bool
  WORKING_HOUR_START : Nat
  WORKING_HOUR_END : Nat
  INTERVAL_MS : Nat
deriving DecidableEq

/-- The mutable maps and counter of the planning loop:
`domain_last_scheduled`, `domain_current_time`, `round_robin_index`. -/
structure PlanState where
  domain_last_scheduled : Nat → Option Nat
  domain_current_time : Nat → Option Nat
  round_robin_index : Nat

/-- Point update of a dictionary `m[d] = v`. -/
def updMap (m : Nat → Option Nat) (d v : Nat) : Nat → Option Nat :=
  fun x => if x = d then some v else m x

/-- The domain choice of the loop body: the pre-existing `domain_index`
when the row carries one, otherwise round-robin over the pool. -/
def chooseDomain (st : PlanState) (existing_domain_index : Option Nat)
    (pool_size : Nat) : Nat :=
  match existing_domain_index with
  | some d => d
  | none => st.round_robin_index % pool_size

/-- One iteration of the `for email in page_emails` body of
`process_launch_task` (launch.py lines 136-175), identical in
retry_failed.py lines 110-146: pick the domain with `chooseDomain`, compute
the candidate from `domain_last_scheduled` / `domain_current_time` / the
floor, clamp it with `adjust_to_working_hours`, and record it in both maps.
Returns the assigned `(domain_index, scheduled_for)` and the next state.
The source increments `round_robin_index` on every item, also when the
item's pre-existing `domain_index` was reused. -/
def planItem (cfg : Config) (pool_size : Nat) (start_time : Nat)
    (st : PlanState) (existing_domain_index : Option Nat) (jitter_ms : Nat) :
    (Nat × Nat) × PlanState :=
  let domain_index := chooseDomain st existing_domain_index pool_size
  let scheduled_for :=
    match st.domain_last_scheduled domain_index, st.domain_current_time domain_index with
    | some last_scheduled, none =>
        -- has existing scheduled emails from other campaigns
        adjust_to_working_hours (last_scheduled + cfg.INTERVAL_MS + jitter_ms)
          cfg.WORKING_HOUR_END cfg.WORKING_HOUR_START true
    | _, some current =>
        -- has emails in current batch
        adjust_to_working_hours (current + cfg.INTERVAL_MS + jitter_ms)
          cfg.WORKING_HOUR_END cfg.WORKING_HOUR_START true
    | none, none =>
        -- first email for this domain
        adjust_to_working_hours (start_time + jitter_ms)
          cfg.WORKING_HOUR_END cfg.WORKING_HOUR_START true
  ((domain_index, scheduled_for),
    { domain_last_scheduled := updMap st.domain_last_scheduled domain_index scheduled_for
      domain_current_time := updMap st.domain_current_time domain_index scheduled_for
      round_robin_index := st.round_robin_index + 1 })

/-- The whole planning loop over a list of items, each given as its
pre-existing `domain_index` (if any) paired with the jitter drawn for it.
Returns the `(domain_index, scheduled_for)` assignments in input order. -/
def planItems (cfg : Config) (pool_size : Nat) (start_time : Nat) :
    PlanState → List (Option Nat × Nat) → List (Nat × Nat)
  | _, [] => []
  | st, (pre, jit) :: rest =>
    let step := planItem cfg pool_size start_time st pre jit
    step.1 :: planItems cfg pool_size start_time step.2 rest

/-- The planner state at the start of a launch / retry task:
`domain_last_scheduled` seeded from the commitments snapshot,
`domain_current_time` empty, `round_robin_index = 0`. -/
def initialPlanState (snapshot : Nat → Option Nat) : PlanState :=
  { domain_last_scheduled := snapshot
    domain_current_time := fun _ => none
    round_robin_index := 0 }

/-! ## Data model

Rows of the `email_queue` and `campaigns` tables, and the store itself.
`created_at` ordering is represented by list order (rows appear in creation
order); `metadata` on a campaign is the flat JSON object the source writes,
modelled as an association list. -/

/-- `email_queue.status`. -/
inductive EStatus
  | staged
  | queued
  | processing
  | sent
  | failed
deriving DecidableEq, Repr

/-- `campaigns.status`. -/
inductive CStatus
  | draft
  | staged
  | scheduled
  | sending
  | paused
  | completed
  | cancelled
deriving DecidableEq, Repr

/-- One `email_queue` row.  Identifiers are naturals; the Python truthiness
test `all([email_id, campaign_id, to_email])` reads as
`id ≠ 0 ∧ campaignId ≠ 0 ∧ toEmail ≠ ""`. -/
structure QueueItem where
  id : Nat
  campaignId : Nat
  toEmail : String
  fromEmail : Option String
  subject : String
  body : String
  status : EStatus
  scheduledFor : Option Nat
  domainIndex : Option Nat
  errorMessage : Option String
  sentAt : Option Nat
deriving DecidableEq, Repr

/-- One `campaigns` row (the fields the core reads and writes). -/
structure Campaign where
  id : Nat
  name : String
  sender : String
  status : CStatus
  metadata : List (String × String)
deriving DecidableEq, Repr

/-- The store: both tables, rows in creation order. -/
structure DB where
  emails : List QueueItem
  campaigns : List Campaign
deriving DecidableEq, Repr

/-- Status of the first `email_queue` row with a given id. -/
def statusOf (db : DB) (email_id : Nat) : Option EStatus :=
  (db.emails.find? fun e => e.id = email_id).map (·.status)

/-- Status of the first `campaigns` row with a given id. -/
def campaignStatusOf (db : DB) (campaign_id : Nat) : Option CStatus :=
  (db.campaigns.find? fun c => c.id = campaign_id).map (·.status)

/-! ## Domain pool (scheduling.py lines 9-62) -/

/-- `BASE_DOMAINS` from scheduling.py: the ordered pool of 28 sub-domains. -/
def BASE_DOMAINS : List String :=
  [ "connect-ozlistings.com", "engage-ozlistings.com", "get-ozlistings.com",
    "join-ozlistings.com", "outreach-ozlistings.com", "ozlistings-reach.com",
    "reach-ozlistings.com", "access-ozlistings.com", "contact-ozlistings.com",
    "direct-ozlistings.com", "grow-ozlistings.com", "growth-ozlistings.com",
    "link-ozlistings.com", "network-ozlistings.com", "ozlistings-access.com",
    "ozlistings-connect.com", "ozlistings-contact.com", "ozlistings-direct.com",
    "ozlistings-engage.com", "ozlistings-get.com", "ozlistings-grow.com",
    "ozlistings-join.com", "ozlistings-link.com", "ozlistings-network.com",
    "ozlistings-outreach.com", "ozlistings-team.com", "ozlistngs-growth.com",
    "team-ozlistings.com" ]

/-- One entry of `generate_domain_config`'s result. -/
structure DomainCfg where
  domain : String
  sender_local : String
  display_name : String
deriving DecidableEq, Repr

/-- `generate_domain_config(sender)` from scheduling.py. -/
def generate_domain_config (sender : String) : List DomainCfg :=
  let sl := if sender = "todd_vitzthum" then "todd.vitzthum" else "jeff.richmond"
  let dn := if sender = "todd_vitzthum" then "Todd Vitzthum" else "Jeff Richmond"
  BASE_DOMAINS.map fun d => { domain := d, sender_local := sl, display_name := dn }

/-- The `from_email` string written at planning time:
`f"{display_name} <{sender_local}@{domain}>"` for `DOMAIN_CONFIG[d]`. -/
def fromEmailFor (dc : List DomainCfg) (d : Nat) : String :=
  let c := dc.getD d { domain := "", sender_local := "", display_name := "" }
  c.display_name ++ " <" ++ c.sender_local ++ "@" ++ c.domain ++ ">"

/-- The commitments snapshot built at the top of launch.py / retry_failed.py:
the latest `scheduled_for` per `domain_index` among rows with
`status ∈ {queued, processing}` and non-null `scheduled_for` (the source
sorts those rows by `scheduled_for` descending and keeps the first row seen
per domain, i.e. the maximum). -/
def snapshotCommitments (emails : List QueueItem) (d : Nat) : Option Nat :=
  emails.foldl
    (fun acc e =>
      if e.domainIndex = some d ∧ (e.status = EStatus.queued ∨ e.status = EStatus.processing) then
        match e.scheduledFor, acc with
        | some t, some m => some (max m t)
        | some t, none => some t
        | none, a => a
      else acc)
    none

/-! ## Launch coordinator (launch.py) and retry failed (retry_failed.py) -/

/-- The per-email store write of `process_launch_task` (launch.py lines
178-183): set `status = queued`, the assigned `domain_index`, the computed
`from_email` and `scheduled_for` on the row with this id. -/
def launchUpdateEmail (dc : List DomainCfg) (db : DB)
    (email_id domain_index scheduled_for : Nat) : DB :=
  { db with
    emails := db.emails.map fun e =>
      if e.id = email_id then
        { e with
          status := EStatus.queued
          domainIndex := some domain_index
          fromEmail := some (fromEmailFor dc domain_index)
          scheduledFor := some scheduled_for }
      else e }

/-- The per-email store write of `process_retry_failed_task`
(retry_failed.py lines 149-155): same as the launch write plus
`error_message = null`. -/
def retryUpdateEmail (dc : List DomainCfg) (db : DB)
    (email_id domain_index scheduled_for : Nat) : DB :=
  { db with
    emails := db.emails.map fun e =>
      if e.id = email_id then
        { e with
          status := EStatus.queued
          domainIndex := some domain_index
          fromEmail := some (fromEmailFor dc domain_index)
          scheduledFor := some scheduled_for
          errorMessage := none }
      else e }

/-- The planning-and-update loop of launch.py lines 133-187: plan each
staged email with `planItem` and immediately write the assignment.
`jitters k` is the jitter drawn for the k-th email. -/
def launchLoop (cfg : Config) (dc : List DomainCfg) (start_time : Nat)
    (jitters : Nat → Nat) : DB → PlanState → Nat → List QueueItem → DB
  | db, _, _, [] => db
  | db, st, k, e :: rest =>
    let step := planItem cfg dc.length start_time st e.domainIndex (jitters k)
    launchLoop cfg dc start_time jitters
      (launchUpdateEmail dc db e.id step.1.1 step.1.2) step.2 (k + 1) rest

/-- Same loop for retry_failed.py lines 110-157, with the retry write. -/
def retryLoop (cfg : Config) (dc : List DomainCfg) (start_time : Nat)
    (jitters : Nat → Nat) : DB → PlanState → Nat → List QueueItem → DB
  | db, _, _, [] => db
  | db, st, k, e :: rest =>
    let step := planItem cfg dc.length start_time st e.domainIndex (jitters k)
    retryLoop cfg dc start_time jitters
      (retryUpdateEmail dc db e.id step.1.1 step.1.2) step.2 (k + 1) rest

/-- The row selection of launch.py lines 54-72: staged rows of this
campaign, restricted to the request's `emailIds` when `all` is false and
the id list is non-empty. -/
def launchSelects (campaign_id : Nat) (request_all : Bool)
    (email_ids : List Nat) (e : QueueItem) : Bool :=
  decide (e.campaignId = campaign_id ∧ e.status = EStatus.staged ∧
    (if ¬ request_all ∧ email_ids ≠ [] then e.id ∈ email_ids else True))

/-- `process_launch_task(campaign_id, supabase, request_data)` from
launch.py: read the campaign, build `DOMAIN_CONFIG` from its sender
(default `"jeff_richmond"`), fetch this campaign's staged emails in
creation order (optionally restricted to `emailIds` when `all` is false
and the list is non-empty), build the commitments snapshot, compute the
floor with `get_start_time_in_timezone`, run the planning loop, and
finally set the campaign's status to `scheduled`. -/
def process_launch_task (cfg : Config) (db : DB) (campaign_id : Nat) (now : Nat)
    (jitters : Nat → Nat) (request_all : Bool) (email_ids : List Nat) : DB :=
  match db.campaigns.find? fun c => c.id = campaign_id with
  | none => db
  | some campaign =>
    let dc := generate_domain_config campaign.sender
    let staged_emails := db.emails.filter
      (launchSelects campaign_id request_all email_ids)
    if staged_emails = [] then db
    else
      let start_time := get_start_time_in_timezone now
        cfg.WORKING_HOUR_START cfg.WORKING_HOUR_END true
      let db1 := launchLoop cfg dc start_time jitters db
        (initialPlanState (snapshotCommitments db.emails)) 0 staged_emails
      { db1 with
        campaigns := db1.campaigns.map fun c =>
          if c.id = campaign_id then { c with status := CStatus.scheduled } else c }

/-- `process_retry_failed_task(campaign_id, supabase)` from retry_failed.py:
read the campaign, fetch this campaign's failed emails in creation order,
build `DOMAIN_CONFIG` and the commitments snapshot, compute the floor, and
run the planning loop with the retry write (which also clears
`error_message`).  The campaign status is not touched. -/
def process_retry_failed_task (cfg : Config) (db : DB) (campaign_id : Nat)
    (now : Nat) (jitters : Nat → Nat) : DB :=
  match db.campaigns.find? fun c => c.id = campaign_id with
  | none => db
  | some campaign =>
    let failed_emails := db.emails.filter fun e =>
      e.campaignId = campaign_id ∧ e.status = EStatus.failed
    if failed_emails = [] then db
    else
      let dc := generate_domain_config campaign.sender
      let start_time := get_start_time_in_timezone now
        cfg.WORKING_HOUR_START cfg.WORKING_HOUR_END true
      retryLoop cfg dc start_time jitters db
        (initialPlanState (snapshotCommitments db.emails)) 0 failed_emails

/-! ## Dispatcher store operations (campaign-runner/db.py)

Each returns the Python function's boolean result
(`len(response.data) > 0`, i.e. whether any row matched) together with the
updated store. -/

/-- `mark_processing(supabase, email_id)` (db.py lines 141-163): conditional
update `status = processing` on rows with this id whose status is still
`queued`; returns whether a row was affected. -/
def mark_processing (db : DB) (email_id : Nat) : Bool × DB :=
  (db.emails.any fun e => e.id = email_id ∧ e.status = EStatus.queued,
    { db with
      emails := db.emails.map fun e =>
        if e.id = email_id ∧ e.status = EStatus.queued then
          { e with status := EStatus.processing }
        else e })

/-- `mark_sent(supabase, email_id)` (db.py lines 166-190): unconditional
`status = sent, sent_at = now` on rows with this id. -/
def mark_sent (db : DB) (email_id : Nat) (now : Nat) : Bool × DB :=
  (db.emails.any fun e => e.id = email_id,
    { db with
      emails := db.emails.map fun e =>
        if e.id = email_id then
          { e with status := EStatus.sent, sentAt := some now }
        else e })

/-- `mark_failed(supabase, email_id, error_message, retry_later,
reschedule_time)` (db.py lines 193-229).  `main.py` only ever calls it with
the defaults `retry_later = False`, `reschedule_time = None`. -/
def mark_failed (db : DB) (email_id : Nat) (error_message : String)
    (retry_later : Bool) (reschedule_time : Option Nat) : Bool × DB :=
  (db.emails.any fun e => e.id = email_id,
    { db with
      emails := db.emails.map fun e =>
        if e.id = email_id then
          match retry_later, reschedule_time with
          | true, some t =>
            { e with errorMessage := some error_message
                     status := EStatus.queued
                     scheduledFor := some t }
          | _, _ =>
            { e with errorMessage := some error_message
                     status := EStatus.failed }
        else e })

/-- `update_generated_body(supabase, email_id, body)` (db.py lines 78-112):
write the generated body on rows with this id. -/
def update_generated_body (db : DB) (email_id : Nat) (body : String) : Bool × DB :=
  (db.emails.any fun e => e.id = email_id,
    { db with
      emails := db.emails.map fun e =>
        if e.id = email_id then { e with body := body } else e })

/-- `pause_campaign(supabase, campaign_id, reason)` (db.py lines 115-138):
unconditional `status = paused` on rows with this id, replacing the whole
`metadata` column with `{"pause_reason": reason, "paused_at": now}`. -/
def pause_campaign (db : DB) (campaign_id : Nat) (reason : String) (now : Nat) :
    Bool × DB :=
  (db.campaigns.any fun c => c.id = campaign_id,
    { db with
      campaigns := db.campaigns.map fun c =>
        if c.id = campaign_id then
          { c with status := CStatus.paused
                   metadata := [("pause_reason", reason), ("paused_at", toString now)] }
        else c })

/-- `get_campaign(supabase, campaign_id)` (db.py lines 55-75). -/
def get_campaign (db : DB) (campaign_id : Nat) : Option Campaign :=
  db.campaigns.find? fun c => c.id = campaign_id

/-- `get_queued_emails(supabase, limit)` (db.py lines 20-52): rows with
`status = queued`, `scheduled_for <= now` (a SQL comparison, so null
`scheduled_for` rows are excluded), inner-joined with a non-`paused`
campaign, in creation order, up to `limit`. -/
def get_queued_emails (db : DB) (now : Nat) (limit : Nat) : List QueueItem :=
  (db.emails.filter fun e =>
    e.status = EStatus.queued ∧
      (db.campaigns.any fun c => c.id = e.campaignId ∧ c.status ≠ CStatus.paused) = true ∧
      (match e.scheduledFor with
       | some t => decide (t ≤ now)
       | none => false) = true).take limit

/-! ## Dispatcher worker (campaign-runner/main.py)

`generate` stands for the AI-generation-plus-render path of lines 154-175:
for an email id it either produces the final rendered body (`Except.ok`) or
fails with an error message (`Except.error`, covering
`prompts.generate_content` and renderer exceptions).  `send` is the
transmission client: `True` exactly on a 2xx response. -/

/-- `CIRCUIT_BREAKER_THRESHOLD` (main.py line 56). -/
def CIRCUIT_BREAKER_THRESHOLD : Nat := 10

/-- `BATCH_SIZE` (main.py line 54). -/
def BATCH_SIZE : Nat := 20

/-- The in-memory state of one `process_email_batch` call: the store plus
`campaign_errors = defaultdict(int)` and the `paused_campaigns` set. -/
structure BatchState where
  db : DB
  campaign_errors : Nat → Nat
  paused_campaigns : List Nat

/-- Point update of the `campaign_errors` dictionary. -/
def updErr (m : Nat → Nat) (c v : Nat) : Nat → Nat :=
  fun x => if x = c then v else m x

/-- The generation-failure handler (main.py lines 186-205): increment
`campaign_errors[campaign_id]`; if the count reaches
`CIRCUIT_BREAKER_THRESHOLD`, pause the campaign (adding it to
`paused_campaigns` only if the pause write affected a row); then mark the
email failed with `"Generation Error: "` and the message, and continue. -/
def genFailure (now : Nat) (st : BatchState) (email_id campaign_id : Nat)
    (error_msg : String) : BatchState :=
  let errs := updErr st.campaign_errors campaign_id
    (st.campaign_errors campaign_id + 1)
  let afterPause :=
    if errs campaign_id ≥ CIRCUIT_BREAKER_THRESHOLD then
      let p := pause_campaign st.db campaign_id
        ("High Failure Rate: " ++ error_msg) now
      if p.1 then (campaign_id :: st.paused_campaigns, p.2)
      else (st.paused_campaigns, p.2)
    else (st.paused_campaigns, st.db)
  let db2 := (mark_failed afterPause.2 email_id
    ("Generation Error: " ++ error_msg) false none).2
  { db := db2, campaign_errors := errs, paused_campaigns := afterPause.1 }

/-- The sending phase (main.py lines 207-246): the post-generation empty
body safety check, then the transmission call, marking the email sent or
failed (`"SparkPost API Error"` on a reported failure).  The campaign error
counter is not touched on this path. -/
def sendPhase (send : Nat → Bool) (now : Nat) (st : BatchState)
    (email_id : Nat) (body : String) : BatchState :=
  if body = "" then
    { st with db := (mark_failed st.db email_id
        "Body is empty after generation" false none).2 }
  else if send email_id then
    { st with db := (mark_sent st.db email_id now).2 }
  else
    { st with db := (mark_failed st.db email_id
        "SparkPost API Error" false none).2 }

/-- One iteration of the `for email in emails` loop of
`process_email_batch` (main.py lines 111-246), acting on the snapshot row
fetched at the top of the batch: skip campaigns paused in this batch;
validate core fields (marking the row failed without claiming it when they
are missing); claim via `mark_processing` and skip when the claim affected
no row; generate just-in-time when the snapshot body is empty (campaign
lookup failure, generation failure and a failed body save all take the
generation-failure path, a success resets `campaign_errors[campaign_id]`
to 0); finally send. -/
def stepEmail (generate : Nat → Except String String) (send : Nat → Bool)
    (now : Nat) (st : BatchState) (email : QueueItem) : BatchState :=
  if email.campaignId ∈ st.paused_campaigns then st
  else if ¬ (email.id ≠ 0 ∧ email.campaignId ≠ 0 ∧ email.toEmail ≠ "") then
    { st with db := (mark_failed st.db email.id "Missing core fields" false none).2 }
  else
    let claim := mark_processing st.db email.id
    if ¬ claim.1 then { st with db := claim.2 }
    else
      let st1 : BatchState := { st with db := claim.2 }
      if email.body = "" then
        match get_campaign st1.db email.campaignId with
        | none =>
          genFailure now st1 email.id email.campaignId
            ("Campaign " ++ toString email.campaignId ++ " not found")
        | some _ =>
          match generate email.id with
          | Except.error msg => genFailure now st1 email.id email.campaignId msg
          | Except.ok final_body =>
            let saved := update_generated_body st1.db email.id final_body
            if ¬ saved.1 then
              genFailure now { st1 with db := saved.2 } email.id email.campaignId
                "Failed to save generated body"
            else
              let st2 : BatchState :=
                { db := saved.2
                  campaign_errors := updErr st1.campaign_errors email.campaignId 0
                  paused_campaigns := st1.paused_campaigns }
              sendPhase send now st2 email.id final_body
      else
        sendPhase send now st1 email.id email.body

/-- `process_email_batch()` (main.py lines 82-251): fetch up to
`BATCH_SIZE` due emails excluding paused campaigns, then run the loop with
a fresh `campaign_errors` dictionary and an empty `paused_campaigns` set. -/
def process_email_batch (generate : Nat → Except String String)
    (send : Nat → Bool) (db : DB) (now : Nat) : BatchState :=
  let emails := get_queued_emails db now BATCH_SIZE
  emails.foldl (stepEmail generate send now)
    { db := db, campaign_errors := fun _ => 0, paused_campaigns := [] }

/-- `is_working_hours()` (main.py lines 59-79): always true when
`DISABLE_WORKING_HOURS` is set, otherwise the current local hour must be
in `[9, 17)` (the bounds are hard-coded in the runner). -/
def is_working_hours (disable_working_hours : Bool) (now : Nat) : Bool :=
  if disable_working_hours then true
  else decide (9 ≤ hourOf now ∧ hourOf now < 17)

/-! ## Completion reconciler (api/routers/campaigns.py lines 77-147) -/

/-- `check_and_update_completed_campaign(supabase, campaign_id)`: read the
campaign status; only act on `scheduled` or `sending`; count this
campaign's emails by status; look for a still-future `queued`/`processing`
row; if complete, flip the status to `completed` with an optimistic update
predicated on the status still being the observed one.  Returns the
function's boolean result and the store. -/
def check_and_update_completed_campaign (db : DB) (campaign_id : Nat)
    (now : Nat) : Bool × DB :=
  match db.campaigns.find? fun c => c.id = campaign_id with
  | none => (false, db)
  | some campaign =>
    let campaign_status := campaign.status
    if campaign_status = CStatus.scheduled ∨ campaign_status = CStatus.sending then
      let countFor := fun (s : EStatus) =>
        (db.emails.filter fun e => e.campaignId = campaign_id ∧ e.status = s).length
      let future := db.emails.filter fun e =>
        e.campaignId = campaign_id ∧
          (e.status = EStatus.queued ∨ e.status = EStatus.processing) ∧
          (match e.scheduledFor with
           | some t => decide (now < t)
           | none => false) = true
      let is_completed :=
        countFor EStatus.queued = 0 ∧ countFor EStatus.processing = 0 ∧
          countFor EStatus.sent + countFor EStatus.failed > 0 ∧
          future.length = 0
      if is_completed then
        (db.campaigns.any fun c => c.id = campaign_id ∧ c.status = campaign_status,
          { db with
            campaigns := db.campaigns.map fun c =>
              if c.id = campaign_id ∧ c.status = campaign_status then
                { c with status := CStatus.completed }
              else c })
      else (false, db)
    else (false, db)

/-! ## Arithmetic facts about the working-window functions -/

lemma advanceWeekend_ge : ∀ (f d : Nat), d ≤ advanceWeekend f d := by
  intro f
  induction f with
  | zero => intro d; exact Nat.le_refl d
  | succ f ih =>
    intro d
    show (if d / dayMs % 7 ≥ 5 then advanceWeekend f (d + dayMs) else d) ≥ d
    split
    · exact Nat.le_trans (Nat.le_add_right d dayMs) (ih (d + dayMs))
    · exact Nat.le_refl d

/-- Closed form of the weekend-skipping loop with fuel 7: the loop advances
two days from a Saturday, one from a Sunday, none otherwise. -/
lemma advanceWeekend7 (d : Nat) :
    advanceWeekend 7 d =
      if d / dayMs % 7 = 5 then d + dayMs + dayMs
      else if d / dayMs % 7 = 6 then d + dayMs
      else d := by
  have u7 : advanceWeekend 7 d =
      if d / dayMs % 7 ≥ 5 then advanceWeekend 6 (d + dayMs) else d := rfl
  have u6 : advanceWeekend 6 (d + dayMs) =
      if (d + dayMs) / dayMs % 7 ≥ 5 then advanceWeekend 5 (d + dayMs + dayMs)
      else d + dayMs := rfl
  have u5 : advanceWeekend 5 (d + dayMs + dayMs) =
      if (d + dayMs + dayMs) / dayMs % 7 ≥ 5 then
        advanceWeekend 4 (d + dayMs + dayMs + dayMs)
      else d + dayMs + dayMs := rfl
  have h1 : (d + dayMs) / dayMs = d / dayMs + 1 := Nat.add_div_right d (by decide)
  have h2 : (d + dayMs + dayMs) / dayMs = d / dayMs + 2 := by
    rw [Nat.add_div_right _ (by decide), h1]
  have hm : d / dayMs % 7 < 7 := Nat.mod_lt _ (by decide)
  by_cases c5 : d / dayMs % 7 = 5
  · rw [u7, if_pos (by omega), u6, if_pos (by rw [h1]; omega), u5,
      if_neg (by rw [h2]; omega), if_pos c5]
  · by_cases c6 : d / dayMs % 7 = 6
    · rw [u7, if_pos (by omega), u6, if_neg (by rw [h1]; omega), if_neg c5, if_pos c6]
    · rw [u7, if_neg (by omega), if_neg c5, if_neg c6]

lemma weekday_advanceWeekend7 (d : Nat) : weekday (advanceWeekend 7 d) < 5 := by
  rw [advanceWeekend7]
  by_cases c5 : d / dayMs % 7 = 5
  · rw [if_pos c5]
    simp only [weekday, dayMs] at *
    omega
  · by_cases c6 : d / dayMs % 7 = 6
    · rw [if_neg c5, if_pos c6]
      simp only [weekday, dayMs] at *
      omega
    · rw [if_neg c5, if_neg c6]
      simp only [weekday, dayMs] at *
      omega

lemma dvd_advanceWeekend7 (d : Nat) (h : dayMs ∣ d) : dayMs ∣ advanceWeekend 7 d := by
  rw [advanceWeekend7]
  split
  · exact Dvd.dvd.add (Dvd.dvd.add h dvd_rfl) dvd_rfl
  · split
    · exact Dvd.dvd.add h dvd_rfl
    · exact h

lemma dvd_startOfDay_add_day (t : Nat) : dayMs ∣ startOfDay t + dayMs :=
  Dvd.dvd.add (Dvd.intro_left _ rfl) dvd_rfl

lemma next_weekday_start_true (t ws : Nat) :
    next_weekday_start t ws true = advanceWeekend 7 (startOfDay t + dayMs) + ws * hourMs := by
  simp [next_weekday_start]

lemma lt_next_weekday_start (t ws : Nat) : t < next_weekday_start t ws true := by
  have hge := advanceWeekend_ge 7 (startOfDay t + dayMs)
  rw [next_weekday_start_true]
  have ht : t < startOfDay t + dayMs := by
    simp only [startOfDay, dayMs]; omega
  omega

/-- The rescheduled instant produced by `next_weekday_start` lies on a
Monday-to-Friday local day, at exactly `working_hour_start` o'clock, and
its midnight is the day the weekend loop stopped at. -/
lemma next_weekday_start_spec (t ws : Nat) (hws : ws < 24) :
    weekday (next_weekday_start t ws true) < 5 ∧
    hourOf (next_weekday_start t ws true) = ws ∧
    startOfDay (next_weekday_start t ws true) = advanceWeekend 7 (startOfDay t + dayMs) := by
  obtain ⟨k, hk⟩ := dvd_advanceWeekend7 _ (dvd_startOfDay_add_day t)
  have hwd := weekday_advanceWeekend7 (startOfDay t + dayMs)
  rw [next_weekday_start_true, hk]
  rw [hk] at hwd
  simp only [weekday, hourOf, startOfDay, dayMs, hourMs] at *
  refine ⟨by omega, by omega, by omega⟩

lemma adjust_ge (c we ws : Nat) : c ≤ adjust_to_working_hours c we ws true := by
  unfold adjust_to_working_hours
  split
  · exact Nat.le_of_lt (lt_next_weekday_start c ws)
  · split
    · exact Nat.le_of_lt (lt_next_weekday_start c ws)
    · exact Nat.le_refl c

/-- Whatever `adjust_to_working_hours` returns lies on a Monday-to-Friday
local day, strictly before `working_hour_end` o'clock local.  (Nothing
places it at or after `working_hour_start`: a candidate earlier in the day
is returned unchanged.) -/
lemma adjust_spec (c we ws : Nat) (hlt : ws < we) (h24 : we ≤ 24) :
    weekday (adjust_to_working_hours c we ws true) < 5 ∧
    adjust_to_working_hours c we ws true <
      startOfDay (adjust_to_working_hours c we ws true) + we * hourMs := by
  have hws : ws < 24 := by omega
  have hnws := next_weekday_start_spec c ws hws
  have hnext : weekday (next_weekday_start c ws true) < 5 ∧
      next_weekday_start c ws true <
        startOfDay (next_weekday_start c ws true) + we * hourMs := by
    refine ⟨hnws.1, ?_⟩
    rw [next_weekday_start_true] at hnws ⊢
    rw [hnws.2.2]
    simp only [hourMs]
    omega
  unfold adjust_to_working_hours
  by_cases hw : weekday c ≥ 5
  · rw [if_pos ⟨rfl, hw⟩]
    exact hnext
  · rw [if_neg fun h => hw h.2]
    by_cases hb : startOfDay c + we * hourMs ≤ c
    · rw [if_pos hb]
      exact hnext
    · rw [if_neg hb]
      exact ⟨by omega, by omega⟩

lemma adjust_id (c we ws : Nat) (h1 : weekday c < 5)
    (h2 : c < startOfDay c + we * hourMs) :
    adjust_to_working_hours c we ws true = c := by
  unfold adjust_to_working_hours
  rw [if_neg fun h => absurd h.2 (by omega), if_neg (by omega)]

/-! ## List and store helper lemmas -/

lemma find?_congr {α : Type} (p q : α → Bool) :
    ∀ (l : List α), (∀ e ∈ l, p e = q e) → l.find? p = l.find? q := by
  intro l
  induction l with
  | nil => intro _; rfl
  | cons a l ih =>
    intro h
    have ha := h a (List.mem_cons_self a l)
    by_cases hp : p a = true
    · rw [List.find?_cons_of_pos _ hp, List.find?_cons_of_pos _ (ha ▸ hp)]
    · rw [List.find?_cons_of_neg _ hp,
        List.find?_cons_of_neg _ (ha ▸ hp)]
      exact ih fun e he => h e (List.mem_cons_of_mem a he)

/-- `find?` by a predicate that a row-updating function preserves commutes
with mapping the update over the table. -/
lemma find?_map_pres {α : Type} (F : α → α) (p : α → Bool)
    (hF : ∀ e, p (F e) = p e) (l : List α) :
    (l.map F).find? p = (l.find? p).map F := by
  rw [List.find?_map F l, find?_congr (p ∘ F) p _ fun e _ => hF e]

lemma forall₂_comp {α β γ : Type} {R : α → β → Prop} {S : β → γ → Prop}
    {T : α → γ → Prop} (h : ∀ a b c, R a b → S b c → T a c) :
    ∀ {l₁ : List α} {l₂ : List β} {l₃ : List γ},
      List.Forall₂ R l₁ l₂ → List.Forall₂ S l₂ l₃ → List.Forall₂ T l₁ l₃ := by
  intro l₁ l₂ l₃ h12 h23
  induction h12 generalizing l₃ with
  | nil =>
    cases h23
    exact List.Forall₂.nil
  | cons hab htl ih =>
    cases h23 with
    | cons hbc htl' => exact List.Forall₂.cons (h _ _ _ hab hbc) (ih htl')

lemma statusOf_eq_some_iff (db : DB) (i : Nat) (s : EStatus) :
    statusOf db i = some s ↔
      ∃ e, db.emails.find? (fun e => e.id = i) = some e ∧ e.status = s := by
  unfold statusOf
  cases h : db.emails.find? fun e => e.id = i with
  | none => simp
  | some e => simp

/-- `mark_failed` with the dispatcher's default arguments rewrites the
status of every row with the given id to `failed` and stores the message. -/
lemma mark_failed_emails (db : DB) (i : Nat) (msg : String) :
    (mark_failed db i msg false none).2.emails =
      db.emails.map fun e =>
        if e.id = i then { e with errorMessage := some msg, status := EStatus.failed }
        else e := rfl

lemma statusOf_mark_failed (db : DB) (i : Nat) (msg : String)
    (h : (db.emails.find? fun e => e.id = i).isSome = true) :
    statusOf (mark_failed db i msg false none).2 i = some EStatus.failed := by
  unfold statusOf
  rw [mark_failed_emails, find?_map_pres _ _ (by intro e; by_cases he : e.id = i <;> simp [he])]
  obtain ⟨e, he⟩ := Option.isSome_iff_exists.mp h
  have hid : e.id = i := by simpa using List.find?_some he
  rw [he]
  simp [hid]

lemma statusOf_mark_sent (db : DB) (i : Nat) (now : Nat)
    (h : (db.emails.find? fun e => e.id = i).isSome = true) :
    statusOf (mark_sent db i now).2 i = some EStatus.sent := by
  unfold statusOf mark_sent
  rw [find?_map_pres _ _ (by intro e; by_cases he : e.id = i <;> simp [he])]
  obtain ⟨e, he⟩ := Option.isSome_iff_exists.mp h
  have hid : e.id = i := by simpa using List.find?_some he
  rw [he]
  simp [hid]

lemma statusOf_mark_processing (db : DB) (i : Nat)
    (h : statusOf db i = some EStatus.queued) :
    statusOf (mark_processing db i).2 i = some EStatus.processing := by
  obtain ⟨e, he, hs⟩ := (statusOf_eq_some_iff db i _).mp h
  have hid : e.id = i := by simpa using List.find?_some he
  unfold statusOf mark_processing
  rw [find?_map_pres _ _ (by intro a; by_cases ha : a.id = i <;> by_cases hq : a.status = EStatus.queued <;> simp [ha, hq])]
  rw [he]
  simp [hid, hs]

lemma mark_processing_fst_of_statusOf (db : DB) (i : Nat)
    (h : statusOf db i = some EStatus.queued) :
    (mark_processing db i).1 = true := by
  obtain ⟨e, he, hs⟩ := (statusOf_eq_some_iff db i _).mp h
  have hid : e.id = i := by simpa using List.find?_some he
  have hmem := List.mem_of_find?_eq_some he
  unfold mark_processing
  simp only [List.any_eq_true]
  exact ⟨e, hmem, by simp [hid, hs]⟩

lemma statusOf_update_generated_body (db : DB) (i : Nat) (b : String) (j : Nat) :
    statusOf (update_generated_body db i b).2 j = statusOf db j := by
  unfold statusOf update_generated_body
  rw [find?_map_pres _ _ (by intro e; by_cases he : e.id = i <;> simp [he])]
  cases db.emails.find? fun e => e.id = j with
  | none => rfl
  | some e =>
    by_cases he : e.id = i <;> simp [he]

lemma presence_mark_processing (db : DB) (i j : Nat) :
    ((mark_processing db i).2.emails.find? fun e => e.id = j).isSome =
      (db.emails.find? fun e => e.id = j).isSome := by
  unfold mark_processing
  rw [find?_map_pres _ _ (by intro a; by_cases ha : a.id = i <;> by_cases hq : a.status = EStatus.queued <;> simp [ha, hq])]
  cases db.emails.find? fun e => e.id = j <;> rfl

lemma presence_update_generated_body (db : DB) (i : Nat) (b : String) (j : Nat) :
    ((update_generated_body db i b).2.emails.find? fun e => e.id = j).isSome =
      (db.emails.find? fun e => e.id = j).isSome := by
  unfold update_generated_body
  rw [find?_map_pres _ _ (by intro e; by_cases he : e.id = i <;> simp [he])]
  cases db.emails.find? fun e => e.id = j <;> rfl

/-- `pause_campaign` touches only the campaigns table. -/
lemma pause_campaign_emails (db : DB) (c : Nat) (r : String) (now : Nat) :
    (pause_campaign db c r now).2.emails = db.emails := rfl

lemma campaignStatusOf_pause (db : DB) (c : Nat) (r : String) (now : Nat)
    (h : (db.campaigns.find? fun x => x.id = c).isSome = true) :
    campaignStatusOf (pause_campaign db c r now).2 c = some CStatus.paused := by
  unfold campaignStatusOf pause_campaign
  rw [find?_map_pres _ _ (by intro a; by_cases ha : a.id = c <;> simp [ha])]
  obtain ⟨x, hx⟩ := Option.isSome_iff_exists.mp h
  have hid : x.id = c := by simpa using List.find?_some hx
  rw [hx]
  simp [hid]

lemma pause_campaign_fst (db : DB) (c : Nat) (r : String) (now : Nat) :
    (pause_campaign db c r now).1 = true ↔ ∃ x ∈ db.campaigns, x.id = c := by
  unfold pause_campaign
  simp [List.any_eq_true]

/-! ## Planner step lemmas -/

lemma planItem_fst (cfg : Config) (pool ft : Nat) (st : PlanState)
    (pre : Option Nat) (j : Nat) :
    (planItem cfg pool ft st pre j).1.1 = chooseDomain st pre pool := rfl

lemma planItem_sched_eq (cfg : Config) (pool ft : Nat) (st : PlanState)
    (pre : Option Nat) (j : Nat) :
    (planItem cfg pool ft st pre j).1.2 =
      match st.domain_last_scheduled (chooseDomain st pre pool),
            st.domain_current_time (chooseDomain st pre pool) with
      | some last_scheduled, none =>
          adjust_to_working_hours (last_scheduled + cfg.INTERVAL_MS + j)
            cfg.WORKING_HOUR_END cfg.WORKING_HOUR_START true
      | _, some current =>
          adjust_to_working_hours (current + cfg.INTERVAL_MS + j)
            cfg.WORKING_HOUR_END cfg.WORKING_HOUR_START true
      | none, none =>
          adjust_to_working_hours (ft + j)
            cfg.WORKING_HOUR_END cfg.WORKING_HOUR_START true := rfl

lemma planItem_sched_first (cfg : Config) (pool ft : Nat) (st : PlanState)
    (pre : Option Nat) (j d : Nat) (hd : chooseDomain st pre pool = d)
    (hl : st.domain_last_scheduled d = none)
    (hc : st.domain_current_time d = none) :
    (planItem cfg pool ft st pre j).1.2 =
      adjust_to_working_hours (ft + j)
        cfg.WORKING_HOUR_END cfg.WORKING_HOUR_START true := by
  rw [planItem_sched_eq, hd, hl, hc]

lemma planItem_sched_last (cfg : Config) (pool ft : Nat) (st : PlanState)
    (pre : Option Nat) (j d last : Nat) (hd : chooseDomain st pre pool = d)
    (hl : st.domain_last_scheduled d = some last)
    (hc : st.domain_current_time d = none) :
    (planItem cfg pool ft st pre j).1.2 =
      adjust_to_working_hours (last + cfg.INTERVAL_MS + j)
        cfg.WORKING_HOUR_END cfg.WORKING_HOUR_START true := by
  rw [planItem_sched_eq, hd, hl, hc]

lemma planItem_sched_cur (cfg : Config) (pool ft : Nat) (st : PlanState)
    (pre : Option Nat) (j d prev : Nat) (hd : chooseDomain st pre pool = d)
    (hc : st.domain_current_time d = some prev) :
    (planItem cfg pool ft st pre j).1.2 =
      adjust_to_working_hours (prev + cfg.INTERVAL_MS + j)
        cfg.WORKING_HOUR_END cfg.WORKING_HOUR_START true := by
  rw [planItem_sched_eq, hd, hc]
  cases st.domain_last_scheduled d <;> rfl

/-- Every scheduled instant the planner emits is the image of some
candidate under `adjust_to_working_hours`. -/
lemma planItem_sched_adjust (cfg : Config) (pool ft : Nat) (st : PlanState)
    (pre : Option Nat) (j : Nat) :
    ∃ c, (planItem cfg pool ft st pre j).1.2 =
      adjust_to_working_hours c cfg.WORKING_HOUR_END cfg.WORKING_HOUR_START true := by
  rw [planItem_sched_eq]
  cases st.domain_last_scheduled (chooseDomain st pre pool) <;>
    cases st.domain_current_time (chooseDomain st pre pool) <;> exact ⟨_, rfl⟩

lemma planItems_sched_window (cfg : Config) (pool ft : Nat)
    (hlt : cfg.WORKING_HOUR_START < cfg.WORKING_HOUR_END)
    (h24 : cfg.WORKING_HOUR_END ≤ 24) :
    ∀ (items : List (Option Nat × Nat)) (st : PlanState),
      ∀ x ∈ planItems cfg pool ft st items,
        weekday x.2 < 5 ∧ x.2 < startOfDay x.2 + cfg.WORKING_HOUR_END * hourMs := by
  intro items
  induction items with
  | nil => intro st x hx; cases hx
  | cons it rest ih =>
    intro st x hx
    rw [show planItems cfg pool ft st (it :: rest) =
        (planItem cfg pool ft st it.1 it.2).1 ::
          planItems cfg pool ft (planItem cfg pool ft st it.1 it.2).2 rest from rfl] at hx
    rcases List.mem_cons.mp hx with h | h
    · obtain ⟨c, hc⟩ := planItem_sched_adjust cfg pool ft st it.1 it.2
      subst h
      rw [hc]
      exact adjust_spec c _ _ hlt h24
    · exact ih _ x h

/-! ## Claim theorems -/

/-- C1: with `INTERVAL = 3.5 min` (210000 ms), zero jitter, a pool of 2,
five fresh items and the floor at Monday 09:00 local, the planner assigns
domains 0,1,0,1,0 and instants 09:00, 09:00, 09:03:30, 09:03:30, 09:07:00;
in general a fresh item takes domain `round_robin_index % pool`, the first
item on a domain is placed at the floor plus its jitter, and every later
item on a domain at the previous assignment plus `INTERVAL` plus jitter
(the last two whenever the candidate already lies inside the working
window, so that the clamp leaves it unchanged). -/
theorem C1_launch_round_robin_and_spacing :
    (planItems ⟨false, 9, 17, 210000⟩ 2
        (get_start_time_in_timezone (9 * hourMs) 9 17 true)
        (initialPlanState fun _ => none)
        [(none, 0), (none, 0), (none, 0), (none, 0), (none, 0)] =
      [(0, 32400000), (1, 32400000), (0, 32610000), (1, 32610000), (0, 32820000)])
    ∧ (∀ (cfg : Config) (pool ft : Nat) (st : PlanState) (j : Nat),
        (planItem cfg pool ft st none j).1.1 = st.round_robin_index % pool)
    ∧ (∀ (cfg : Config) (pool ft : Nat) (st : PlanState) (pre : Option Nat) (j d : Nat),
        chooseDomain st pre pool = d →
        st.domain_last_scheduled d = none → st.domain_current_time d = none →
        weekday (ft + j) < 5 →
        ft + j < startOfDay (ft + j) + cfg.WORKING_HOUR_END * hourMs →
        (planItem cfg pool ft st pre j).1.2 = ft + j)
    ∧ (∀ (cfg : Config) (pool ft : Nat) (st : PlanState) (pre : Option Nat) (j d prev : Nat),
        chooseDomain st pre pool = d →
        st.domain_current_time d = some prev →
        weekday (prev + cfg.INTERVAL_MS + j) < 5 →
        prev + cfg.INTERVAL_MS + j <
          startOfDay (prev + cfg.INTERVAL_MS + j) + cfg.WORKING_HOUR_END * hourMs →
        (planItem cfg pool ft st pre j).1.2 = prev + cfg.INTERVAL_MS + j) := by
  refine ⟨by decide, fun cfg pool ft st j => rfl, ?_, ?_⟩
  · intro cfg pool ft st pre j d hd hl hc hw hb
    rw [planItem_sched_first cfg pool ft st pre j d hd hl hc]
    exact adjust_id _ _ _ hw hb
  · intro cfg pool ft st pre j d prev hd hc hw hb
    rw [planItem_sched_cur cfg pool ft st pre j d prev hd hc]
    exact adjust_id _ _ _ hw hb

/-- Concrete instantiation of `C1_launch_round_robin_and_spacing`:
the first item on a fresh domain lands exactly on the Monday-09:00 floor,
and a follow-up item on the same domain lands 3.5 minutes later. -/
theorem C1_witness :
    (planItem ⟨false, 9, 17, 210000⟩ 2 32400000
        (initialPlanState fun _ => none) none 0).1.2 = 32400000 ∧
    (planItem ⟨false, 9, 17, 210000⟩ 2 32400000
        { domain_last_scheduled := fun d => if d = 0 then some 32400000 else none
          domain_current_time := fun d => if d = 0 then some 32400000 else none
          round_robin_index := 2 } none 0).1.2 = 32400000 + 210000 + 0 := by
  constructor
  · exact C1_launch_round_robin_and_spacing.2.2.1 ⟨false, 9, 17, 210000⟩ 2 32400000
      _ none 0 0 rfl rfl rfl (by decide) (by decide)
  · exact C1_launch_round_robin_and_spacing.2.2.2 ⟨false, 9, 17, 210000⟩ 2 32400000
      _ none 0 0 32400000 rfl rfl (by decide) (by decide)

/-- C2 fails on the code: `adjust_to_working_hours` has no branch pushing a
candidate before `WORK_START` up to `WORK_START`; a Monday 02:00 candidate
is returned unchanged, and a planned item seeded from a Monday 02:00
commitment is scheduled at local hour 2, outside `[9, 17)`. -/
theorem C2_counterexample :
    adjust_to_working_hours (2 * hourMs) 17 9 true = 2 * hourMs ∧
    hourOf (2 * hourMs) < 9 ∧
    planItems ⟨false, 9, 17, 210000⟩ 28 (9 * hourMs)
        (initialPlanState fun d => if d = 0 then some (2 * hourMs) else none)
        [(none, 0)] =
      [(0, 2 * hourMs + 210000)] ∧
    hourOf (2 * hourMs + 210000) < 9 := by
  refine ⟨by decide, by decide, by decide, by decide⟩

/-- C2 (amended): the clamp rolls a candidate on a weekend or at/after
`WORK_END` local to the next valid weekday at `WORK_START` local, and
returns any other candidate unchanged — including one before `WORK_START`;
consequently every planned `scheduled_for` falls on a Monday-to-Friday
local day strictly before `WORK_END` local, but not necessarily at or
after `WORK_START`. -/
theorem C2_clamp_weekday_and_end_only :
    (∀ c we ws, ws < we → we ≤ 24 →
      weekday (adjust_to_working_hours c we ws true) < 5 ∧
      adjust_to_working_hours c we ws true <
        startOfDay (adjust_to_working_hours c we ws true) + we * hourMs)
    ∧ (∀ c we ws, weekday c ≥ 5 ∨ startOfDay c + we * hourMs ≤ c →
        adjust_to_working_hours c we ws true = next_weekday_start c ws true)
    ∧ (∀ c ws, ws < 24 →
        weekday (next_weekday_start c ws true) < 5 ∧
        hourOf (next_weekday_start c ws true) = ws)
    ∧ (∀ c we ws, weekday c < 5 → c < startOfDay c + we * hourMs →
        adjust_to_working_hours c we ws true = c)
    ∧ (∀ (cfg : Config) (pool ft : Nat) (items : List (Option Nat × Nat)) (st : PlanState),
        cfg.WORKING_HOUR_START < cfg.WORKING_HOUR_END → cfg.WORKING_HOUR_END ≤ 24 →
        ∀ x ∈ planItems cfg pool ft st items,
          weekday x.2 < 5 ∧ x.2 < startOfDay x.2 + cfg.WORKING_HOUR_END * hourMs) := by
  refine ⟨fun c we ws hlt h24 => adjust_spec c we ws hlt h24, ?_, ?_, adjust_id, ?_⟩
  · intro c we ws h
    unfold adjust_to_working_hours
    by_cases hw : weekday c ≥ 5
    · rw [if_pos ⟨rfl, hw⟩]
    · rcases h with h | h
      · exact absurd h hw
      · rw [if_neg fun hh => hw hh.2, if_pos h]
  · intro c ws hws
    exact ⟨(next_weekday_start_spec c ws hws).1, (next_weekday_start_spec c ws hws).2.1⟩
  · intro cfg pool ft items st hlt h24
    exact planItems_sched_window cfg pool ft hlt h24 items st

/-- Concrete instantiation of `C2_clamp_weekday_and_end_only`: a Monday
02:00 candidate is returned unchanged, and a Monday 18:00 candidate rolls
to Tuesday 09:00. -/
theorem C2_witness :
    adjust_to_working_hours (2 * hourMs) 17 9 true = 2 * hourMs ∧
    adjust_to_working_hours (18 * hourMs) 17 9 true = next_weekday_start (18 * hourMs) 9 true := by
  constructor
  · exact C2_clamp_weekday_and_end_only.2.2.2.1 (2 * hourMs) 17 9 (by decide) (by decide)
  · exact C2_clamp_weekday_and_end_only.2.1 (18 * hourMs) 17 9 (Or.inr (by decide))

/-- C9 fails on the code: the launch planner clamps unconditionally —
`DISABLE_WORKING_HOURS` is never read in launch.py — so with the flag set,
a commitment at Monday 16:58 plus `INTERVAL = 3.5 min` is still rolled to
Tuesday 09:00 instead of the unclamped 17:01:30 the claim requires. -/
theorem C9_counterexample :
    planItems ⟨true, 9, 17, 210000⟩ 28 (9 * hourMs)
        (initialPlanState fun d => if d = 0 then some 61080000 else none)
        [(none, 0)] =
      [(0, dayMs + 9 * hourMs)] ∧
    dayMs + 9 * hourMs ≠ 61080000 + 210000 + 0 := by
  exact ⟨by decide, by decide⟩

/-- C9 (amended): the planner never reads `DISABLE_WORKING_HOURS` — its
output is identical for either value of the flag, and the working-hours
clamp is applied unconditionally; the flag only short-circuits the
dispatcher's `is_working_hours` poll gate to `true`.  Per-domain spacing
(at least `INTERVAL` after the previous assignment) is enforced
regardless. -/
theorem C9_planner_ignores_disable_flag :
    (∀ (b b' : Bool) (ws we i pool ft : Nat)
        (items : List (Option Nat × Nat)) (st : PlanState),
      planItems ⟨b, ws, we, i⟩ pool ft st items =
        planItems ⟨b', ws, we, i⟩ pool ft st items)
    ∧ (∀ now, is_working_hours true now = true)
    ∧ (∀ (cfg : Config) (pool ft : Nat) (st : PlanState) (pre : Option Nat) (j d prev : Nat),
        chooseDomain st pre pool = d →
        st.domain_current_time d = some prev →
        prev + cfg.INTERVAL_MS ≤ (planItem cfg pool ft st pre j).1.2) := by
  refine ⟨?_, fun now => rfl, ?_⟩
  · intro b b' ws we i pool ft items
    induction items with
    | nil => intro st; rfl
    | cons it rest ih =>
      intro st
      have hstep : planItem ⟨b, ws, we, i⟩ pool ft st it.1 it.2 =
          planItem ⟨b', ws, we, i⟩ pool ft st it.1 it.2 := rfl
      calc planItems ⟨b, ws, we, i⟩ pool ft st (it :: rest)
          = (planItem ⟨b, ws, we, i⟩ pool ft st it.1 it.2).1 ::
              planItems ⟨b, ws, we, i⟩ pool ft
                (planItem ⟨b, ws, we, i⟩ pool ft st it.1 it.2).2 rest := rfl
        _ = (planItem ⟨b', ws, we, i⟩ pool ft st it.1 it.2).1 ::
              planItems ⟨b', ws, we, i⟩ pool ft
                (planItem ⟨b', ws, we, i⟩ pool ft st it.1 it.2).2 rest := by
              rw [hstep, ih]
  · intro cfg pool ft st pre j d prev hd hc
    rw [planItem_sched_cur cfg pool ft st pre j d prev hd hc]
    exact Nat.le_trans (Nat.le_add_right _ _) (adjust_ge _ _ _)

/-- Concrete instantiation of `C9_planner_ignores_disable_flag`: spacing
from a Monday 09:00 in-batch assignment is at least 3.5 minutes. -/
theorem C9_witness :
    32400000 + 210000 ≤
      (planItem ⟨true, 9, 17, 210000⟩ 2 32400000
        { domain_last_scheduled := fun d => if d = 0 then some 32400000 else none
          domain_current_time := fun d => if d = 0 then some 32400000 else none
          round_robin_index := 2 } none 5000).1.2 :=
  C9_planner_ignores_disable_flag.2.2 ⟨true, 9, 17, 210000⟩ 2 32400000
    _ none 5000 0 32400000 rfl rfl

/-- C3: `mark_processing` is a conditional update — it returns true exactly
when a row with the given id still had status `queued` (turning it into
`processing`), returns false leaving the store unchanged otherwise, and a
second claim of the same item always returns false, so at most one of two
claims of one item succeeds. -/
theorem C3_claim_is_conditional_update :
    (∀ (db : DB) (i : Nat),
      (mark_processing db i).1 = true ↔
        ∃ e ∈ db.emails, e.id = i ∧ e.status = EStatus.queued)
    ∧ (∀ (db : DB) (i : Nat),
        (mark_processing db i).1 = false → (mark_processing db i).2 = db)
    ∧ (∀ (db : DB) (i : Nat) (e : QueueItem), e ∈ db.emails → e.id = i →
        e.status = EStatus.queued →
        { e with status := EStatus.processing } ∈ (mark_processing db i).2.emails)
    ∧ (∀ (db : DB) (i : Nat),
        (mark_processing (mark_processing db i).2 i).1 = false) := by
  refine ⟨?_, ?_, ?_, ?_⟩
  · intro db i
    unfold mark_processing
    simp [List.any_eq_true]
  · intro db i h
    unfold mark_processing at h ⊢
    simp only [List.any_eq_false] at h
    cases db with
    | mk emails campaigns =>
      simp only [DB.mk.injEq, and_true]
      calc List.map (fun e =>
              if e.id = i ∧ e.status = EStatus.queued then
                { e with status := EStatus.processing } else e) emails
          = List.map id emails := by
            apply List.map_congr_left
            intro e he
            have := h e he
            simp only [decide_eq_true_eq] at this
            rw [if_neg this]
            rfl
        _ = emails := List.map_id emails
  · intro db i e he hid hq
    unfold mark_processing
    exact List.mem_map.mpr ⟨e, he, by rw [if_pos ⟨hid, hq⟩]⟩
  · intro db i
    conv_lhs => rw [show (mark_processing (mark_processing db i).2 i).1 =
      ((mark_processing db i).2.emails.any fun e =>
        e.id = i ∧ e.status = EStatus.queued) from rfl]
    rw [show (mark_processing db i).2.emails = db.emails.map (fun e =>
      if e.id = i ∧ e.status = EStatus.queued then
        { e with status := EStatus.processing } else e) from rfl]
    rw [List.any_map, List.any_eq_false]
    intro e he
    by_cases hc : e.id = i ∧ e.status = EStatus.queued
    · simp [Function.comp, if_pos hc]
    · simp only [Function.comp, if_neg hc]
      simp [hc]

def c3Queued : QueueItem :=
  { id := 1, campaignId := 1, toEmail := "a", fromEmail := some "f", subject := "s",
    body := "b", status := EStatus.queued, scheduledFor := some 0,
    domainIndex := some 0, errorMessage := none, sentAt := none }

def c3Sent : QueueItem := { c3Queued with status := EStatus.sent }

/-- Concrete instantiation of `C3_claim_is_conditional_update`: claiming a
queued row returns true; claiming a sent row leaves the store unchanged. -/
theorem C3_witness :
    (mark_processing ⟨[c3Queued], []⟩ 1).1 = true ∧
    (mark_processing ⟨[c3Sent], []⟩ 1).2 = ⟨[c3Sent], []⟩ := by
  constructor
  · exact (C3_claim_is_conditional_update.1 ⟨[c3Queued], []⟩ 1).mpr
      ⟨c3Queued, by decide, rfl, rfl⟩
  · exact C3_claim_is_conditional_update.2.1 ⟨[c3Sent], []⟩ 1 (by decide)

/-- C10: `pause_campaign` writes `status = paused` unconditionally on any
campaign row with the given id — whatever its current status, including
`completed` or `cancelled` — and replaces the whole `metadata` column with
exactly the `pause_reason` / `paused_at` mapping, discarding what was
stored before; other campaigns and the email table are untouched. -/
theorem C10_pause_unconditional_overwrite :
    (∀ (db : DB) (c : Nat) (reason : String) (now : Nat) (camp : Campaign),
      camp ∈ db.campaigns → camp.id = c →
        { camp with
            status := CStatus.paused
            metadata := [("pause_reason", reason), ("paused_at", toString now)] }
          ∈ (pause_campaign db c reason now).2.campaigns)
    ∧ (∀ (db : DB) (c : Nat) (reason : String) (now : Nat) (camp : Campaign),
        camp ∈ db.campaigns → camp.id ≠ c →
          camp ∈ (pause_campaign db c reason now).2.campaigns)
    ∧ (∀ (db : DB) (c : Nat) (reason : String) (now : Nat),
        (pause_campaign db c reason now).2.emails = db.emails) := by
  refine ⟨?_, ?_, fun db c reason now => rfl⟩
  · intro db c reason now camp hmem hid
    unfold pause_campaign
    exact List.mem_map.mpr ⟨camp, hmem, by rw [if_pos hid]⟩
  · intro db c reason now camp hmem hid
    unfold pause_campaign
    exact List.mem_map.mpr ⟨camp, hmem, by rw [if_neg hid]⟩

def c10Campaign : Campaign :=
  { id := 1, name := "n", sender := "jeff_richmond",
    status := CStatus.completed, metadata := [("k", "v")] }

/-- Concrete instantiation of `C10_pause_unconditional_overwrite`: pausing
a `completed` campaign with pre-existing metadata yields a `paused` row
whose metadata holds only the pause keys. -/
theorem C10_witness :
    { c10Campaign with
        status := CStatus.paused
        metadata := [("pause_reason", "r"), ("paused_at", toString 0)] }
      ∈ (pause_campaign ⟨[], [c10Campaign]⟩ 1 "r" 0).2.campaigns :=
  C10_pause_unconditional_overwrite.1 ⟨[], [c10Campaign]⟩ 1 "r" 0 c10Campaign
    (by decide) rfl

/-- C5: the reconciler reports (and writes) completion exactly when the
campaign's observed status is `scheduled` or `sending`, no row of the
campaign is `queued` or `processing`, at least one is `sent` or `failed`,
and no `queued`/`processing` row is scheduled in the future; when it
reports false the store is unchanged; when it reports true the campaign's
status becomes `completed` (written with the optimistic status predicate)
and the email table is untouched; a campaign observed `paused` or
`cancelled` is never changed. -/
theorem C5_completion_reconciler :
    (∀ (db : DB) (c now : Nat),
      (check_and_update_completed_campaign db c now).1 = true ↔
        ∃ camp, db.campaigns.find? (fun x => x.id = c) = some camp ∧
          (camp.status = CStatus.scheduled ∨ camp.status = CStatus.sending) ∧
          (db.emails.filter fun e =>
            e.campaignId = c ∧ e.status = EStatus.queued).length = 0 ∧
          (db.emails.filter fun e =>
            e.campaignId = c ∧ e.status = EStatus.processing).length = 0 ∧
          (db.emails.filter fun e =>
              e.campaignId = c ∧ e.status = EStatus.sent).length +
            (db.emails.filter fun e =>
              e.campaignId = c ∧ e.status = EStatus.failed).length > 0 ∧
          (db.emails.filter fun e =>
            e.campaignId = c ∧
              (e.status = EStatus.queued ∨ e.status = EStatus.processing) ∧
              (match e.scheduledFor with
               | some t => decide (now < t)
               | none => false) = true).length = 0)
    ∧ (∀ (db : DB) (c now : Nat),
        (check_and_update_completed_campaign db c now).1 = false →
        (check_and_update_completed_campaign db c now).2 = db)
    ∧ (∀ (db : DB) (c now : Nat),
        (check_and_update_completed_campaign db c now).1 = true →
        campaignStatusOf (check_and_update_completed_campaign db c now).2 c =
            some CStatus.completed ∧
        (check_and_update_completed_campaign db c now).2.emails = db.emails)
    ∧ (∀ (db : DB) (c now : Nat) (camp : Campaign),
        db.campaigns.find? (fun x => x.id = c) = some camp →
        camp.status = CStatus.paused ∨ camp.status = CStatus.cancelled →
        (check_and_update_completed_campaign db c now).2 = db) := by
  have hbranch : ∀ (db : DB) (c now : Nat) (camp : Campaign),
      db.campaigns.find? (fun x => x.id = c) = some camp →
      check_and_update_completed_campaign db c now =
        (if camp.status = CStatus.scheduled ∨ camp.status = CStatus.sending then
          if (db.emails.filter fun e =>
                e.campaignId = c ∧ e.status = EStatus.queued).length = 0 ∧
              (db.emails.filter fun e =>
                e.campaignId = c ∧ e.status = EStatus.processing).length = 0 ∧
              (db.emails.filter fun e =>
                  e.campaignId = c ∧ e.status = EStatus.sent).length +
                (db.emails.filter fun e =>
                  e.campaignId = c ∧ e.status = EStatus.failed).length > 0 ∧
              (db.emails.filter fun e =>
                e.campaignId = c ∧
                  (e.status = EStatus.queued ∨ e.status = EStatus.processing) ∧
                  (match e.scheduledFor with
                   | some t => decide (now < t)
                   | none => false) = true).length = 0 then
            (db.campaigns.any fun x => x.id = c ∧ x.status = camp.status,
              { db with
                campaigns := db.campaigns.map fun x =>
                  if x.id = c ∧ x.status = camp.status then
                    { x with status := CStatus.completed }
                  else x })
          else (false, db)
        else (false, db)) := by
    intro db c now camp hf
    unfold check_and_update_completed_campaign
    rw [hf]
  have hid_of : ∀ (db : DB) (c : Nat) (camp : Campaign),
      db.campaigns.find? (fun x => x.id = c) = some camp → camp.id = c := by
    intro db c camp hf
    simpa using List.find?_some hf
  refine ⟨?_, ?_, ?_, ?_⟩
  · intro db c now
    cases hf : db.campaigns.find? fun x => x.id = c with
    | none =>
      rw [show (check_and_update_completed_campaign db c now) = (false, db) by
        unfold check_and_update_completed_campaign; rw [hf]]
      simp
    | some camp =>
      rw [hbranch db c now camp hf]
      by_cases hs : camp.status = CStatus.scheduled ∨ camp.status = CStatus.sending
      · rw [if_pos hs]
        by_cases hcomp : (db.emails.filter fun e =>
              e.campaignId = c ∧ e.status = EStatus.queued).length = 0 ∧
            (db.emails.filter fun e =>
              e.campaignId = c ∧ e.status = EStatus.processing).length = 0 ∧
            (db.emails.filter fun e =>
                e.campaignId = c ∧ e.status = EStatus.sent).length +
              (db.emails.filter fun e =>
                e.campaignId = c ∧ e.status = EStatus.failed).length > 0 ∧
            (db.emails.filter fun e =>
              e.campaignId = c ∧
                (e.status = EStatus.queued ∨ e.status = EStatus.processing) ∧
                (match e.scheduledFor with
                 | some t => decide (now < t)
                 | none => false) = true).length = 0
        · rw [if_pos hcomp]
          constructor
          · intro _
            exact ⟨camp, rfl, hs, hcomp.1, hcomp.2.1, hcomp.2.2.1, hcomp.2.2.2⟩
          · intro _
            refine List.any_eq_true.mpr ⟨camp, List.mem_of_find?_eq_some hf, ?_⟩
            simp [hid_of db c camp hf]
        · rw [if_neg hcomp]
          rw [show ((false, db) : Bool × DB).1 = false from rfl]
          constructor
          · intro h
            cases h
          · rintro ⟨camp', hf', hs', h1, h2, h3, h4⟩
            cases hf'
            exact absurd ⟨h1, h2, h3, h4⟩ hcomp
      · rw [if_neg hs]
        rw [show ((false, db) : Bool × DB).1 = false from rfl]
        constructor
        · intro h
          cases h
        · rintro ⟨camp', hf', hs', -⟩
          cases hf'
          exact absurd hs' hs
  · intro db c now h
    cases hf : db.campaigns.find? fun x => x.id = c with
    | none =>
      rw [show (check_and_update_completed_campaign db c now) = (false, db) by
        unfold check_and_update_completed_campaign; rw [hf]]
    | some camp =>
      rw [hbranch db c now camp hf] at h ⊢
      by_cases hs : camp.status = CStatus.scheduled ∨ camp.status = CStatus.sending
      · rw [if_pos hs] at h ⊢
        revert h
        split
        · intro h
          exfalso
          have hany : (db.campaigns.any fun x =>
              x.id = c ∧ x.status = camp.status) = false := h
          rw [List.any_eq_false] at hany
          refine hany camp (List.mem_of_find?_eq_some hf) ?_
          simp [hid_of db c camp hf]
        · intro _
          rfl
      · rw [if_neg hs]
  · intro db c now h
    cases hf : db.campaigns.find? fun x => x.id = c with
    | none =>
      rw [show (check_and_update_completed_campaign db c now) = (false, db) by
        unfold check_and_update_completed_campaign; rw [hf]] at h
      simp at h
    | some camp =>
      rw [hbranch db c now camp hf] at h ⊢
      by_cases hs : camp.status = CStatus.scheduled ∨ camp.status = CStatus.sending
      · rw [if_pos hs] at h ⊢
        revert h
        split
        · intro _
          constructor
          · unfold campaignStatusOf
            rw [show ({ db with
                campaigns := db.campaigns.map fun x =>
                  if x.id = c ∧ x.status = camp.status then
                    { x with status := CStatus.completed }
                  else x } : DB).campaigns = db.campaigns.map fun x =>
                  if x.id = c ∧ x.status = camp.status then
                    { x with status := CStatus.completed }
                  else x from rfl]
            rw [find?_map_pres _ _ (by
              intro a
              by_cases ha : a.id = c <;> by_cases hst : a.status = camp.status <;>
                simp [ha, hst])]
            rw [hf]
            simp [hid_of db c camp hf]
          · rfl
        · intro h
          simp at h
      · rw [if_neg hs] at h
        simp at h
  · intro db c now camp hf hpc
    rw [hbranch db c now camp hf]
    rw [if_neg ?_]
    rcases hpc with hp | hp <;> rw [hp] <;> rintro (h | h) <;> cases h

def c5Item : QueueItem :=
  { id := 1, campaignId := 1, toEmail := "a", fromEmail := some "f", subject := "s",
    body := "b", status := EStatus.sent, scheduledFor := some 0,
    domainIndex := some 0, errorMessage := none, sentAt := some 0 }

def c5Campaign : Campaign :=
  { id := 1, name := "n", sender := "jeff_richmond",
    status := CStatus.scheduled, metadata := [] }

def c5DB : DB := ⟨[c5Item], [c5Campaign]⟩

/-- Concrete instantiation of `C5_completion_reconciler`: a `scheduled`
campaign whose only row is `sent` is reconciled to `completed`. -/
theorem C5_witness :
    (check_and_update_completed_campaign c5DB 1 0).1 = true ∧
    campaignStatusOf (check_and_update_completed_campaign c5DB 1 0).2 1 =
      some CStatus.completed := by
  have h1 : (check_and_update_completed_campaign c5DB 1 0).1 = true :=
    (C5_completion_reconciler.1 c5DB 1 0).mpr
      ⟨c5Campaign, by decide, Or.inl rfl, by decide, by decide, by decide, by decide⟩
  exact ⟨h1, (C5_completion_reconciler.2.2.1 c5DB 1 0 h1).1⟩

/-! ## Dispatcher step lemmas -/

lemma errorMessageOf_mark_failed (db : DB) (i : Nat) (msg : String)
    (h : (db.emails.find? fun e => e.id = i).isSome = true) :
    ((mark_failed db i msg false none).2.emails.find? fun e => e.id = i).map
        (·.errorMessage) = some (some msg) := by
  rw [mark_failed_emails, find?_map_pres _ _
    (by intro e; by_cases he : e.id = i <;> simp [he])]
  obtain ⟨e, he⟩ := Option.isSome_iff_exists.mp h
  have hid : e.id = i := by simpa using List.find?_some he
  rw [he]
  simp [hid]

lemma statusOf_isSome (db : DB) (i : Nat) (s : EStatus)
    (h : statusOf db i = some s) :
    (db.emails.find? fun e => e.id = i).isSome = true := by
  obtain ⟨e, he, -⟩ := (statusOf_eq_some_iff db i s).mp h
  rw [he]
  rfl

lemma sendPhase_campaign_errors (send : Nat → Bool) (now : Nat)
    (st : BatchState) (i : Nat) (b : String) :
    (sendPhase send now st i b).campaign_errors = st.campaign_errors := by
  unfold sendPhase
  split
  · rfl
  · split <;> rfl

lemma sendPhase_paused (send : Nat → Bool) (now : Nat)
    (st : BatchState) (i : Nat) (b : String) :
    (sendPhase send now st i b).paused_campaigns = st.paused_campaigns := by
  unfold sendPhase
  split
  · rfl
  · split <;> rfl

lemma stepEmail_skip (g : Nat → Except String String) (s : Nat → Bool)
    (now : Nat) (st : BatchState) (email : QueueItem)
    (h : email.campaignId ∈ st.paused_campaigns) :
    stepEmail g s now st email = st := by
  unfold stepEmail
  rw [if_pos h]

lemma stepEmail_invalid (g : Nat → Except String String) (s : Nat → Bool)
    (now : Nat) (st : BatchState) (email : QueueItem)
    (h1 : email.campaignId ∉ st.paused_campaigns)
    (h2 : ¬ (email.id ≠ 0 ∧ email.campaignId ≠ 0 ∧ email.toEmail ≠ "")) :
    stepEmail g s now st email =
      { st with
        db := (mark_failed st.db email.id "Missing core fields" false none).2 } := by
  unfold stepEmail
  rw [if_neg h1, if_pos h2]

lemma genFailure_campaign_errors (now : Nat) (st : BatchState)
    (i c : Nat) (msg : String) :
    (genFailure now st i c msg).campaign_errors c = st.campaign_errors c + 1 := by
  unfold genFailure
  simp [updErr]

lemma genFailure_pause (now : Nat) (st : BatchState) (i c : Nat) (msg : String)
    (hthr : st.campaign_errors c + 1 ≥ CIRCUIT_BREAKER_THRESHOLD)
    (hex : ∃ x ∈ st.db.campaigns, x.id = c) :
    campaignStatusOf (genFailure now st i c msg).db c = some CStatus.paused ∧
    c ∈ (genFailure now st i c msg).paused_campaigns := by
  have hcond : updErr st.campaign_errors c (st.campaign_errors c + 1) c ≥
      CIRCUIT_BREAKER_THRESHOLD := by
    simpa [updErr] using hthr
  have hpause : (pause_campaign st.db c ("High Failure Rate: " ++ msg) now).1 = true :=
    (pause_campaign_fst st.db c _ now).mpr hex
  simp only [genFailure]
  rw [if_pos hcond, if_pos hpause]
  constructor
  · show campaignStatusOf
      (mark_failed (pause_campaign st.db c ("High Failure Rate: " ++ msg) now).2
        i ("Generation Error: " ++ msg) false none).2 c = some CStatus.paused
    have hcamps : (mark_failed (pause_campaign st.db c ("High Failure Rate: " ++ msg) now).2
        i ("Generation Error: " ++ msg) false none).2.campaigns =
        (pause_campaign st.db c ("High Failure Rate: " ++ msg) now).2.campaigns := rfl
    unfold campaignStatusOf
    rw [hcamps]
    have hfp : ((pause_campaign st.db c ("High Failure Rate: " ++ msg) now).2.campaigns.find?
        fun x => x.id = c).isSome = true := by
      have : (st.db.campaigns.find? fun x => x.id = c).isSome = true := by
        rw [List.find?_isSome]
        obtain ⟨x, hx, hid⟩ := hex
        exact ⟨x, hx, by simp [hid]⟩
      have hres := campaignStatusOf_pause st.db c ("High Failure Rate: " ++ msg) now this
      unfold campaignStatusOf at hres
      cases hh : (pause_campaign st.db c ("High Failure Rate: " ++ msg) now).2.campaigns.find?
          fun x => x.id = c
      · rw [hh] at hres
        cases hres
      · rfl
    have hres := campaignStatusOf_pause st.db c ("High Failure Rate: " ++ msg) now (by
      rw [List.find?_isSome]
      obtain ⟨x, hx, hid⟩ := hex
      exact ⟨x, hx, by simp [hid]⟩)
    unfold campaignStatusOf at hres
    exact hres
  · exact List.mem_cons_self c st.paused_campaigns

lemma genFailure_status (now : Nat) (st : BatchState) (i c : Nat) (msg : String)
    (h : (st.db.emails.find? fun e => e.id = i).isSome = true) :
    statusOf (genFailure now st i c msg).db i = some EStatus.failed := by
  simp only [genFailure]
  split
  · split
    · exact statusOf_mark_failed _ i _ (by
        rw [show (pause_campaign st.db c ("High Failure Rate: " ++ msg) now).2.emails =
          st.db.emails from rfl]
        exact h)
    · exact statusOf_mark_failed _ i _ (by
        rw [show (pause_campaign st.db c ("High Failure Rate: " ++ msg) now).2.emails =
          st.db.emails from rfl]
        exact h)
  · exact statusOf_mark_failed _ i _ h

def c8Item1 : QueueItem :=
  { id := 1, campaignId := 1, toEmail := "a", fromEmail := some "f", subject := "s",
    body := "", status := EStatus.queued, scheduledFor := some 0,
    domainIndex := some 0, errorMessage := none, sentAt := none }

def c8Item2 : QueueItem := { c8Item1 with id := 2, body := "x" }

def c8DB : DB :=
  ⟨[c8Item1, c8Item2],
    [{ id := 1, name := "c", sender := "jeff_richmond",
       status := CStatus.scheduled, metadata := [] }]⟩

/-- C8 fails on the code: after a generation failure (counter at 1), a
transmission failure on the next item of the same campaign marks that item
failed with `"SparkPost API Error"` but leaves the counter at 1 — the
dispatcher never resets the counter on a send failure. -/
theorem C8_counterexample :
    statusOf (process_email_batch (fun _ => Except.error "boom")
        (fun _ => false) c8DB 0).db 2 = some EStatus.failed ∧
    ((process_email_batch (fun _ => Except.error "boom")
        (fun _ => false) c8DB 0).db.emails.find? fun e => e.id = 2).map
      (·.errorMessage) = some (some "SparkPost API Error") ∧
    (process_email_batch (fun _ => Except.error "boom")
        (fun _ => false) c8DB 0).campaign_errors 1 = 1 := by
  exact ⟨by decide, by decide, by decide⟩

/-- C8 (amended): when the transmission API reports failure for an item,
the dispatcher sets the item's status to `failed` with the error string
`"SparkPost API Error"` and leaves the per-campaign generation-failure
counter entirely unchanged — it neither increments nor resets it — so a
send failure cannot contribute to tripping the circuit breaker. -/
theorem C8_send_failure_leaves_counter
    (g : Nat → Except String String) (s : Nat → Bool) (now : Nat)
    (st : BatchState) (email : QueueItem)
    (h1 : email.campaignId ∉ st.paused_campaigns)
    (h2 : email.id ≠ 0 ∧ email.campaignId ≠ 0 ∧ email.toEmail ≠ "")
    (hq : statusOf st.db email.id = some EStatus.queued)
    (hb : email.body ≠ "")
    (hs : s email.id = false) :
    (stepEmail g s now st email).campaign_errors = st.campaign_errors ∧
    (stepEmail g s now st email).paused_campaigns = st.paused_campaigns ∧
    statusOf (stepEmail g s now st email).db email.id = some EStatus.failed ∧
    ((stepEmail g s now st email).db.emails.find? fun e => e.id = email.id).map
      (·.errorMessage) = some (some "SparkPost API Error") := by
  have hclaim := mark_processing_fst_of_statusOf st.db email.id hq
  have hpres : ((mark_processing st.db email.id).2.emails.find? fun e =>
      e.id = email.id).isSome = true := by
    rw [presence_mark_processing]
    exact statusOf_isSome st.db email.id _ hq
  have hstep : stepEmail g s now st email =
      sendPhase s now { st with db := (mark_processing st.db email.id).2 }
        email.id email.body := by
    simp only [stepEmail]
    rw [if_neg h1, if_neg (fun hc => hc h2), if_neg (fun hc => hc hclaim),
      if_neg hb]
  have hsend : sendPhase s now { st with db := (mark_processing st.db email.id).2 }
      email.id email.body =
      { st with
        db := (mark_failed (mark_processing st.db email.id).2 email.id
          "SparkPost API Error" false none).2 } := by
    unfold sendPhase
    rw [if_neg hb, if_neg (by simp [hs])]
  rw [hstep, hsend]
  refine ⟨rfl, rfl, ?_, ?_⟩
  · exact statusOf_mark_failed _ _ _ hpres
  · exact errorMessageOf_mark_failed _ _ _ hpres

def c8wItem : QueueItem := { c8Item1 with body := "x" }

def c8wCampaign : Campaign :=
  { id := 1, name := "c", sender := "jeff_richmond",
    status := CStatus.scheduled, metadata := [] }

def c8wState : BatchState :=
  ⟨⟨[c8wItem], [c8wCampaign]⟩, (fun x => if x = 1 then 3 else 0), []⟩

/-- Concrete instantiation of `C8_send_failure_leaves_counter`: with the
campaign's counter at 3, a send failure marks the item failed and the
counter map is exactly the one from before. -/
theorem C8_witness :
    (stepEmail (fun _ => Except.ok "b") (fun _ => false) 0 c8wState
      c8wItem).campaign_errors = c8wState.campaign_errors ∧
    statusOf (stepEmail (fun _ => Except.ok "b") (fun _ => false) 0 c8wState
      c8wItem).db 1 = some EStatus.failed := by
  have h := C8_send_failure_leaves_counter (fun _ => Except.ok "b")
    (fun _ => false) 0 c8wState c8wItem (by decide)
    ⟨by decide, by decide, by decide⟩ (by decide) (by decide) rfl
  exact ⟨h.1, h.2.2.1⟩

def c4Item (k : Nat) : QueueItem :=
  { id := k, campaignId := 1, toEmail := "a", fromEmail := some "f", subject := "s",
    body := "", status := EStatus.queued, scheduledFor := some 0,
    domainIndex := some 0, errorMessage := none, sentAt := none }

def c4Campaign : Campaign :=
  { id := 1, name := "c", sender := "jeff_richmond",
    status := CStatus.scheduled, metadata := [("k", "v")] }

def c4DB : DB := ⟨(List.range 15).map fun k => c4Item (k + 1), [c4Campaign]⟩

/-- C4: in one batch the per-campaign generation-failure counter starts at
zero, increments on each generation failure, resets to zero on a
generation success, and on reaching the threshold of 10 the campaign is
paused with a reason and the rest of its items in the batch are skipped
before being claimed.  Concretely, a batch of 15 all-failing items leaves
items 1-10 `failed`, items 11-15 still `queued`, the campaign `paused`
with the reason metadata, and the counter at 10. -/
theorem C4_circuit_breaker :
    (campaignStatusOf (process_email_batch (fun _ => Except.error "boom")
        (fun _ => true) c4DB 0).db 1 = some CStatus.paused)
    ∧ (∀ k ∈ List.range' 1 10, statusOf (process_email_batch
        (fun _ => Except.error "boom") (fun _ => true) c4DB 0).db k =
          some EStatus.failed)
    ∧ (∀ k ∈ List.range' 11 5, statusOf (process_email_batch
        (fun _ => Except.error "boom") (fun _ => true) c4DB 0).db k =
          some EStatus.queued)
    ∧ (process_email_batch (fun _ => Except.error "boom")
        (fun _ => true) c4DB 0).campaign_errors 1 = 10
    ∧ (process_email_batch (fun _ => Except.error "boom")
        (fun _ => true) c4DB 0).paused_campaigns = [1]
    ∧ ((process_email_batch (fun _ => Except.error "boom")
        (fun _ => true) c4DB 0).db.campaigns.find? fun x => x.id = 1).map
        (·.metadata) =
        some [("pause_reason", "High Failure Rate: boom"), ("paused_at", toString 0)]
    ∧ (∀ (g : Nat → Except String String) (s : Nat → Bool) (now : Nat)
        (st : BatchState) (email : QueueItem),
        email.campaignId ∈ st.paused_campaigns → stepEmail g s now st email = st)
    ∧ (∀ (now : Nat) (st : BatchState) (i c : Nat) (msg : String),
        (genFailure now st i c msg).campaign_errors c = st.campaign_errors c + 1)
    ∧ (∀ (now : Nat) (st : BatchState) (i c : Nat) (msg : String),
        st.campaign_errors c + 1 ≥ CIRCUIT_BREAKER_THRESHOLD →
        (∃ x ∈ st.db.campaigns, x.id = c) →
        campaignStatusOf (genFailure now st i c msg).db c = some CStatus.paused ∧
        c ∈ (genFailure now st i c msg).paused_campaigns)
    ∧ (∀ (g : Nat → Except String String) (s : Nat → Bool) (now : Nat)
        (st : BatchState) (email : QueueItem) (b : String),
        email.campaignId ∉ st.paused_campaigns →
        (email.id ≠ 0 ∧ email.campaignId ≠ 0 ∧ email.toEmail ≠ "") →
        statusOf st.db email.id = some EStatus.queued →
        email.body = "" →
        (∃ camp, get_campaign st.db email.campaignId = some camp) →
        g email.id = Except.ok b →
        (stepEmail g s now st email).campaign_errors email.campaignId = 0) := by
  refine ⟨by decide, by decide, by decide, by decide, by decide, by decide,
    stepEmail_skip, genFailure_campaign_errors, genFailure_pause, ?_⟩
  intro g s now st email b h1 h2 hq hb hcamp hg
  have hclaim := mark_processing_fst_of_statusOf st.db email.id hq
  obtain ⟨camp, hcampeq⟩ := hcamp
  have hc2 : get_campaign (mark_processing st.db email.id).2 email.campaignId =
      some camp := hcampeq
  have hsave : (update_generated_body (mark_processing st.db email.id).2
      email.id b).1 = true := by
    have hp : ((mark_processing st.db email.id).2.emails.find? fun e =>
        e.id = email.id).isSome = true := by
      rw [presence_mark_processing]
      exact statusOf_isSome st.db email.id _ hq
    unfold update_generated_body
    rw [List.find?_isSome] at hp
    obtain ⟨e, he, hid⟩ := hp
    exact List.any_eq_true.mpr ⟨e, he, hid⟩
  simp only [stepEmail]
  rw [if_neg h1, if_neg (fun hc => hc h2), if_neg (fun hc => hc hclaim),
    if_pos hb]
  simp only [hc2, hg]
  rw [if_neg (fun hcna => hcna hsave)]
  rw [sendPhase_campaign_errors]
  simp [updErr]

def c4wSkipState : BatchState := ⟨c4DB, (fun _ => 0), [1]⟩

def c4wResetState : BatchState := ⟨⟨[c4Item 1], [c4Campaign]⟩, (fun _ => 5), []⟩

def c4wThrState : BatchState := ⟨⟨[c4Item 1], [c4Campaign]⟩, (fun _ => 9), []⟩

/-- Concrete instantiation of `C4_circuit_breaker`: an item of a campaign
paused earlier in the batch is skipped unchanged; a generation success
resets the counter from 5 to 0; a tenth failure pauses the campaign. -/
theorem C4_witness :
    stepEmail (fun _ => Except.error "x") (fun _ => true) 0 c4wSkipState
        (c4Item 1) = c4wSkipState ∧
    (stepEmail (fun _ => Except.ok "b") (fun _ => true) 0 c4wResetState
        (c4Item 1)).campaign_errors 1 = 0 ∧
    campaignStatusOf (genFailure 0 c4wThrState 1 1 "boom").db 1 =
        some CStatus.paused := by
  refine ⟨?_, ?_, ?_⟩
  · exact C4_circuit_breaker.2.2.2.2.2.2.1 (fun _ => Except.error "x")
      (fun _ => true) 0 c4wSkipState (c4Item 1) (by decide)
  · exact C4_circuit_breaker.2.2.2.2.2.2.2.2.2 (fun _ => Except.ok "b")
      (fun _ => true) 0 c4wResetState (c4Item 1) "b" (by decide)
      ⟨by decide, by decide, by decide⟩ (by decide) rfl
      ⟨c4Campaign, by decide⟩ rfl
  · exact (C4_circuit_breaker.2.2.2.2.2.2.2.2.1 0 c4wThrState 1 1 "boom"
      (by decide) ⟨c4Campaign, by decide, rfl⟩).1

/-! ## Status-transition machinery (claim C6) -/

/-- The transitions on a queue item that the specification allows. -/
def allowedTransition : EStatus → EStatus → Bool
  | EStatus.staged, EStatus.queued => true
  | EStatus.queued, EStatus.processing => true
  | EStatus.processing, EStatus.sent => true
  | EStatus.processing, EStatus.failed => true
  | EStatus.failed, EStatus.queued => true
  | _, _ => false

/-- Row `b` is row `a` either with an unchanged status or moved along the
single transition `s1 → s2`. -/
def StatusStep (s1 s2 : EStatus) (a b : QueueItem) : Prop :=
  b.status = a.status ∨ (a.status = s1 ∧ b.status = s2)

lemma statusStep_trans (s1 s2 : EStatus) (hne : s1 ≠ s2) (a b c : QueueItem) :
    StatusStep s1 s2 a b → StatusStep s1 s2 b c → StatusStep s1 s2 a c := by
  rintro (h1 | ⟨h1a, h1b⟩) (h2 | ⟨h2a, h2b⟩)
  · exact Or.inl (h2.trans h1)
  · exact Or.inr ⟨h1.symm.trans h2a, h2b⟩
  · exact Or.inr ⟨h1a, h2.trans h1b⟩
  · exact absurd (h2a.symm.trans h1b) hne

lemma forall₂_map_self {α : Type} (l : List α) (F : α → α) (R : α → α → Prop)
    (h : ∀ x ∈ l, R x (F x)) : List.Forall₂ R l (l.map F) := by
  rw [List.forall₂_map_right_iff]
  exact List.forall₂_same.mpr h

lemma eq_of_mem_pairwise_ne :
    ∀ {l : List QueueItem}, l.Pairwise (fun a b => a.id ≠ b.id) →
      ∀ {a b : QueueItem}, a ∈ l → b ∈ l → a.id = b.id → a = b := by
  intro l
  induction l with
  | nil => intro _ a b ha; cases ha
  | cons x xs ih =>
    intro hp a b ha hb hid
    rw [List.pairwise_cons] at hp
    rcases List.mem_cons.mp ha with ha1 | ha1
    · rcases List.mem_cons.mp hb with hb1 | hb1
      · rw [ha1, hb1]
      · have hxb : x.id = b.id := by rw [← ha1, hid]
        exact absurd hxb (hp.1 b hb1)
    · rcases List.mem_cons.mp hb with hb1 | hb1
      · have hxa : x.id = a.id := by rw [← hb1, hid]
        exact absurd hxa (hp.1 a ha1)
      · exact ih hp.2 ha1 hb1 hid

lemma launchLoop_statusStep (cfg : Config) (dc : List DomainCfg)
    (ft : Nat) (jit : Nat → Nat) :
    ∀ (items : List QueueItem) (db : DB) (st : PlanState) (k : Nat),
      (∀ e' ∈ items, ∀ e ∈ db.emails, e.id = e'.id →
        e.status = EStatus.staged ∨ e.status = EStatus.queued) →
      List.Forall₂ (StatusStep EStatus.staged EStatus.queued) db.emails
        (launchLoop cfg dc ft jit db st k items).emails := by
  intro items
  induction items with
  | nil =>
    intro db st k _
    exact List.forall₂_same.mpr fun x _ => Or.inl rfl
  | cons e rest ih =>
    intro db st k hH
    show List.Forall₂ (StatusStep EStatus.staged EStatus.queued) db.emails
      (launchLoop cfg dc ft jit
        (launchUpdateEmail dc db e.id
          (planItem cfg dc.length ft st e.domainIndex (jit k)).1.1
          (planItem cfg dc.length ft st e.domainIndex (jit k)).1.2)
        (planItem cfg dc.length ft st e.domainIndex (jit k)).2 (k + 1) rest).emails
    have F1 : List.Forall₂ (StatusStep EStatus.staged EStatus.queued) db.emails
        (launchUpdateEmail dc db e.id
          (planItem cfg dc.length ft st e.domainIndex (jit k)).1.1
          (planItem cfg dc.length ft st e.domainIndex (jit k)).1.2).emails := by
      apply forall₂_map_self
      intro x hx
      by_cases hid : x.id = e.id
      · rw [if_pos hid]
        rcases hH e (List.mem_cons_self e rest) x hx hid with hst | hst
        · exact Or.inr ⟨hst, rfl⟩
        · exact Or.inl (hst.symm)
      · rw [if_neg hid]
        exact Or.inl rfl
    have H1 : ∀ e' ∈ rest, ∀ y ∈ (launchUpdateEmail dc db e.id
        (planItem cfg dc.length ft st e.domainIndex (jit k)).1.1
        (planItem cfg dc.length ft st e.domainIndex (jit k)).1.2).emails,
        y.id = e'.id → y.status = EStatus.staged ∨ y.status = EStatus.queued := by
      intro e' he' y hy hid
      obtain ⟨x, hx, hxy⟩ := List.mem_map.mp hy
      by_cases hxe : x.id = e.id
      · rw [if_pos hxe] at hxy
        rw [← hxy]
        exact Or.inr rfl
      · rw [if_neg hxe] at hxy
        subst hxy
        exact hH e' (List.mem_cons_of_mem e he') x hx hid
    exact forall₂_comp (statusStep_trans EStatus.staged EStatus.queued (by decide))
      F1 (ih _ _ _ H1)

lemma retryLoop_statusStep (cfg : Config) (dc : List DomainCfg)
    (ft : Nat) (jit : Nat → Nat) :
    ∀ (items : List QueueItem) (db : DB) (st : PlanState) (k : Nat),
      (∀ e' ∈ items, ∀ e ∈ db.emails, e.id = e'.id →
        e.status = EStatus.failed ∨ e.status = EStatus.queued) →
      List.Forall₂ (StatusStep EStatus.failed EStatus.queued) db.emails
        (retryLoop cfg dc ft jit db st k items).emails := by
  intro items
  induction items with
  | nil =>
    intro db st k _
    exact List.forall₂_same.mpr fun x _ => Or.inl rfl
  | cons e rest ih =>
    intro db st k hH
    show List.Forall₂ (StatusStep EStatus.failed EStatus.queued) db.emails
      (retryLoop cfg dc ft jit
        (retryUpdateEmail dc db e.id
          (planItem cfg dc.length ft st e.domainIndex (jit k)).1.1
          (planItem cfg dc.length ft st e.domainIndex (jit k)).1.2)
        (planItem cfg dc.length ft st e.domainIndex (jit k)).2 (k + 1) rest).emails
    have F1 : List.Forall₂ (StatusStep EStatus.failed EStatus.queued) db.emails
        (retryUpdateEmail dc db e.id
          (planItem cfg dc.length ft st e.domainIndex (jit k)).1.1
          (planItem cfg dc.length ft st e.domainIndex (jit k)).1.2).emails := by
      apply forall₂_map_self
      intro x hx
      by_cases hid : x.id = e.id
      · rw [if_pos hid]
        rcases hH e (List.mem_cons_self e rest) x hx hid with hst | hst
        · exact Or.inr ⟨hst, rfl⟩
        · exact Or.inl (hst.symm)
      · rw [if_neg hid]
        exact Or.inl rfl
    have H1 : ∀ e' ∈ rest, ∀ y ∈ (retryUpdateEmail dc db e.id
        (planItem cfg dc.length ft st e.domainIndex (jit k)).1.1
        (planItem cfg dc.length ft st e.domainIndex (jit k)).1.2).emails,
        y.id = e'.id → y.status = EStatus.failed ∨ y.status = EStatus.queued := by
      intro e' he' y hy hid
      obtain ⟨x, hx, hxy⟩ := List.mem_map.mp hy
      by_cases hxe : x.id = e.id
      · rw [if_pos hxe] at hxy
        rw [← hxy]
        exact Or.inr rfl
      · rw [if_neg hxe] at hxy
        subst hxy
        exact hH e' (List.mem_cons_of_mem e he') x hx hid
    exact forall₂_comp (statusStep_trans EStatus.failed EStatus.queued (by decide))
      F1 (ih _ _ _ H1)

lemma sendPhase_status (s : Nat → Bool) (now : Nat) (st : BatchState)
    (i : Nat) (b : String)
    (hp : (st.db.emails.find? fun e => e.id = i).isSome = true) :
    statusOf (sendPhase s now st i b).db i = some EStatus.sent ∨
    statusOf (sendPhase s now st i b).db i = some EStatus.failed := by
  unfold sendPhase
  split
  · exact Or.inr (statusOf_mark_failed _ _ _ hp)
  · split
    · exact Or.inl (statusOf_mark_sent _ _ _ hp)
    · exact Or.inr (statusOf_mark_failed _ _ _ hp)

/-- After a successful claim of a valid queued item, the dispatcher step
always finishes the item in `sent` or `failed`. -/
lemma stepEmail_final_status (g : Nat → Except String String) (s : Nat → Bool)
    (now : Nat) (st : BatchState) (email : QueueItem)
    (h1 : email.campaignId ∉ st.paused_campaigns)
    (h2 : email.id ≠ 0 ∧ email.campaignId ≠ 0 ∧ email.toEmail ≠ "")
    (hq : statusOf st.db email.id = some EStatus.queued) :
    statusOf (stepEmail g s now st email).db email.id = some EStatus.sent ∨
    statusOf (stepEmail g s now st email).db email.id = some EStatus.failed := by
  have hclaim := mark_processing_fst_of_statusOf st.db email.id hq
  have hp1 : ((mark_processing st.db email.id).2.emails.find? fun e =>
      e.id = email.id).isSome = true := by
    rw [presence_mark_processing]
    exact statusOf_isSome st.db email.id _ hq
  simp only [stepEmail]
  rw [if_neg h1, if_neg (fun hc => hc h2), if_neg (fun hc => hc hclaim)]
  by_cases hb : email.body = ""
  · rw [if_pos hb]
    cases hcampF : get_campaign (mark_processing st.db email.id).2 email.campaignId with
    | none =>
      exact Or.inr (genFailure_status now _ email.id email.campaignId _ hp1)
    | some camp =>
      cases hgen : g email.id with
      | error msg =>
        exact Or.inr (genFailure_status now _ email.id email.campaignId _ hp1)
      | ok b =>
        have hsave : (update_generated_body (mark_processing st.db email.id).2
            email.id b).1 = true := by
          unfold update_generated_body
          rw [List.find?_isSome] at hp1
          obtain ⟨e, he, hid⟩ := hp1
          exact List.any_eq_true.mpr ⟨e, he, hid⟩
        have hpres2 : ((update_generated_body (mark_processing st.db email.id).2
            email.id b).2.emails.find? fun e => e.id = email.id).isSome = true := by
          rw [presence_update_generated_body]
          exact hp1
        simp only [hsave, not_true_eq_false, if_false]
        exact sendPhase_status s now _ email.id b hpres2
  · rw [if_neg hb]
    exact sendPhase_status s now _ email.id email.body hp1

def c6Item : QueueItem :=
  { id := 1, campaignId := 1, toEmail := "", fromEmail := some "f", subject := "s",
    body := "x", status := EStatus.queued, scheduledFor := some 0,
    domainIndex := some 0, errorMessage := none, sentAt := none }

def c6DB : DB :=
  ⟨[c6Item],
    [{ id := 1, name := "c", sender := "jeff_richmond",
       status := CStatus.scheduled, metadata := [] }]⟩

/-- C6 fails on the code: the dispatcher's pre-claim validation marks a
queued row with an empty `to_email` as `failed` directly — a `queued →
failed` status change, which is not among the allowed transitions and
happens without first claiming the item into `processing`. -/
theorem C6_counterexample :
    statusOf c6DB 1 = some EStatus.queued ∧
    statusOf (process_email_batch (fun _ => Except.ok "b")
        (fun _ => true) c6DB 0).db 1 = some EStatus.failed ∧
    allowedTransition EStatus.queued EStatus.failed = false := by
  exact ⟨by decide, by decide, by decide⟩

/-- C6 (amended): every status change applied by launching, retrying, or
dispatching is one of the allowed transitions `staged→queued` (launch),
`failed→queued` (retry), `queued→processing` (claim), and — for a claimed
item — the step finishes it in `sent` or `failed` (i.e. `processing→sent`
or `processing→failed`); the one exception is the dispatcher's pre-claim
validation, which marks an item with missing core fields (id, campaign id
or `to_email`) `failed` directly from `queued` without claiming it. -/
theorem C6_transitions_with_validation_exception :
    (∀ (db : DB) (i : Nat),
      List.Forall₂ (StatusStep EStatus.queued EStatus.processing) db.emails
        (mark_processing db i).2.emails)
    ∧ (∀ (cfg : Config) (db : DB) (c now : Nat) (jit : Nat → Nat)
        (ra : Bool) (ids : List Nat),
        db.emails.Pairwise (fun a b => a.id ≠ b.id) →
        List.Forall₂ (StatusStep EStatus.staged EStatus.queued) db.emails
          (process_launch_task cfg db c now jit ra ids).emails)
    ∧ (∀ (cfg : Config) (db : DB) (c now : Nat) (jit : Nat → Nat),
        db.emails.Pairwise (fun a b => a.id ≠ b.id) →
        List.Forall₂ (StatusStep EStatus.failed EStatus.queued) db.emails
          (process_retry_failed_task cfg db c now jit).emails)
    ∧ (∀ (g : Nat → Except String String) (s : Nat → Bool) (now : Nat)
        (st : BatchState) (email : QueueItem),
        email.campaignId ∉ st.paused_campaigns →
        (email.id ≠ 0 ∧ email.campaignId ≠ 0 ∧ email.toEmail ≠ "") →
        statusOf st.db email.id = some EStatus.queued →
        statusOf (mark_processing st.db email.id).2 email.id =
            some EStatus.processing ∧
        (statusOf (stepEmail g s now st email).db email.id = some EStatus.sent ∨
         statusOf (stepEmail g s now st email).db email.id = some EStatus.failed))
    ∧ (∀ (g : Nat → Except String String) (s : Nat → Bool) (now : Nat)
        (st : BatchState) (email : QueueItem),
        email.campaignId ∉ st.paused_campaigns →
        ¬ (email.id ≠ 0 ∧ email.campaignId ≠ 0 ∧ email.toEmail ≠ "") →
        statusOf st.db email.id = some EStatus.queued →
        statusOf (stepEmail g s now st email).db email.id =
          some EStatus.failed) := by
  refine ⟨?_, ?_, ?_, ?_, ?_⟩
  · intro db i
    apply forall₂_map_self
    intro x hx
    by_cases hc : x.id = i ∧ x.status = EStatus.queued
    · rw [if_pos hc]
      exact Or.inr ⟨hc.2, rfl⟩
    · rw [if_neg hc]
      exact Or.inl rfl
  · intro cfg db c now jit ra ids hpw
    simp only [process_launch_task]
    split
    · exact List.forall₂_same.mpr fun x _ => Or.inl rfl
    · rename_i camp hf
      split
      · exact List.forall₂_same.mpr fun x _ => Or.inl rfl
      · show List.Forall₂ (StatusStep EStatus.staged EStatus.queued) db.emails
          (launchLoop cfg (generate_domain_config camp.sender)
            (get_start_time_in_timezone now cfg.WORKING_HOUR_START
              cfg.WORKING_HOUR_END true) jit db
            (initialPlanState (snapshotCommitments db.emails)) 0
            (db.emails.filter (launchSelects c ra ids))).emails
        apply launchLoop_statusStep
        intro e' he' e he hid
        rw [List.mem_filter] at he'
        obtain ⟨he'mem, hpred⟩ := he'
        have heq : e = e' := eq_of_mem_pairwise_ne hpw he he'mem hid
        have hst : e'.status = EStatus.staged := by
          simp only [launchSelects, decide_eq_true_eq] at hpred
          exact hpred.2.1
        rw [heq, hst]
        exact Or.inl rfl
  · intro cfg db c now jit hpw
    simp only [process_retry_failed_task]
    split
    · exact List.forall₂_same.mpr fun x _ => Or.inl rfl
    · rename_i camp hf
      split
      · exact List.forall₂_same.mpr fun x _ => Or.inl rfl
      · show List.Forall₂ (StatusStep EStatus.failed EStatus.queued) db.emails
          (retryLoop cfg (generate_domain_config camp.sender)
            (get_start_time_in_timezone now cfg.WORKING_HOUR_START
              cfg.WORKING_HOUR_END true) jit db
            (initialPlanState (snapshotCommitments db.emails)) 0
            (db.emails.filter fun e =>
              e.campaignId = c ∧ e.status = EStatus.failed)).emails
        apply retryLoop_statusStep
        intro e' he' e he hid
        rw [List.mem_filter] at he'
        obtain ⟨he'mem, hpred⟩ := he'
        have heq : e = e' := eq_of_mem_pairwise_ne hpw he he'mem hid
        have hst : e'.status = EStatus.failed := by
          simp only [decide_eq_true_eq] at hpred
          exact hpred.2
        rw [heq, hst]
        exact Or.inl rfl
  · intro g s now st email h1 h2 hq
    exact ⟨statusOf_mark_processing st.db email.id hq,
      stepEmail_final_status g s now st email h1 h2 hq⟩
  · intro g s now st email h1 h2 hq
    rw [stepEmail_invalid g s now st email h1 h2]
    exact statusOf_mark_failed _ _ _ (statusOf_isSome _ _ _ hq)

def c6wItem : QueueItem := { c6Item with toEmail := "a" }

def c6wState : BatchState :=
  ⟨⟨[c6wItem],
    [{ id := 1, name := "c", sender := "jeff_richmond",
       status := CStatus.scheduled, metadata := [] }]⟩,
    (fun _ => 0), []⟩

/-- Concrete instantiation of `C6_transitions_with_validation_exception`:
a valid queued item passes through `processing` after the claim and ends
the step in `sent` or `failed`. -/
theorem C6_witness :
    statusOf (mark_processing c6wState.db 1).2 1 = some EStatus.processing ∧
    (statusOf (stepEmail (fun _ => Except.ok "b") (fun _ => true) 0 c6wState
        c6wItem).db 1 = some EStatus.sent ∨
     statusOf (stepEmail (fun _ => Except.ok "b") (fun _ => true) 0 c6wState
        c6wItem).db 1 = some EStatus.failed) := by
  have h := C6_transitions_with_validation_exception.2.2.2.1
    (fun _ => Except.ok "b") (fun _ => true) 0 c6wState c6wItem (by decide)
    ⟨by decide, by decide, by decide⟩ (by decide)
  exact h

/-! ## Retry-effect machinery (claim C7) -/

lemma forall₂_imp_mem {α β : Type} {R S : α → β → Prop} :
    ∀ {l₁ : List α} {l₂ : List β}, List.Forall₂ R l₁ l₂ →
      (∀ a ∈ l₁, ∀ b, R a b → S a b) → List.Forall₂ S l₁ l₂ := by
  intro l₁ l₂ h
  induction h with
  | nil => intro _; exact List.Forall₂.nil
  | cons hab htl ih =>
    intro hmem
    exact List.Forall₂.cons
      (hmem _ (List.mem_cons_self _ _) _ hab)
      (ih fun a ha b hr => hmem a (List.mem_cons_of_mem _ ha) b hr)

/-- Row-level effect of one pass of the retry loop over its item list:
rows whose id is not an item id are untouched; a row whose id is an item
id is set to `queued` with a cleared error, keeps its `domain_index` when
it had one, and carries a schedule and the `from_email` of its domain. -/
lemma retryLoop_spec (cfg : Config) (dc : List DomainCfg) (ft : Nat)
    (jit : Nat → Nat) :
    ∀ (items : List QueueItem) (db : DB) (st : PlanState) (k : Nat),
      items.Pairwise (fun a b => a.id ≠ b.id) →
      (∀ e' ∈ items, ∀ e ∈ db.emails, e.id = e'.id →
        e.domainIndex = e'.domainIndex) →
      List.Forall₂ (fun a b =>
        ((¬ ∃ e' ∈ items, e'.id = a.id) → b = a) ∧
        ((∃ e' ∈ items, e'.id = a.id) →
          b.status = EStatus.queued ∧ b.errorMessage = none ∧
          (∀ d0, a.domainIndex = some d0 → b.domainIndex = some d0) ∧
          ∃ d t, b.domainIndex = some d ∧ b.scheduledFor = some t ∧
            b.fromEmail = some (fromEmailFor dc d)))
        db.emails (retryLoop cfg dc ft jit db st k items).emails := by
  intro items
  induction items with
  | nil =>
    intro db st k _ _
    refine List.forall₂_same.mpr fun x _ => ⟨fun _ => rfl, ?_⟩
    rintro ⟨e', he', -⟩
    cases he'
  | cons e rest ih =>
    intro db st k hpw hdom
    rw [List.pairwise_cons] at hpw
    show List.Forall₂ _ db.emails
      (retryLoop cfg dc ft jit
        (retryUpdateEmail dc db e.id
          (planItem cfg dc.length ft st e.domainIndex (jit k)).1.1
          (planItem cfg dc.length ft st e.domainIndex (jit k)).1.2)
        (planItem cfg dc.length ft st e.domainIndex (jit k)).2 (k + 1) rest).emails
    have hd : (planItem cfg dc.length ft st e.domainIndex (jit k)).1.1 =
        chooseDomain st e.domainIndex dc.length := rfl
    have F1 : List.Forall₂ (fun a b =>
        (a.id ≠ e.id → b = a) ∧
        (a.id = e.id → a.domainIndex = e.domainIndex ∧
          b = { a with
            status := EStatus.queued
            domainIndex := some (planItem cfg dc.length ft st e.domainIndex (jit k)).1.1
            fromEmail := some (fromEmailFor dc
              (planItem cfg dc.length ft st e.domainIndex (jit k)).1.1)
            scheduledFor := some (planItem cfg dc.length ft st e.domainIndex (jit k)).1.2
            errorMessage := none })) db.emails
        (retryUpdateEmail dc db e.id
          (planItem cfg dc.length ft st e.domainIndex (jit k)).1.1
          (planItem cfg dc.length ft st e.domainIndex (jit k)).1.2).emails := by
      apply forall₂_map_self
      intro x hx
      by_cases hid : x.id = e.id
      · refine ⟨fun hne => absurd hid hne, fun _ => ⟨?_, by rw [if_pos hid]⟩⟩
        exact hdom e (List.mem_cons_self e rest) x hx hid
      · exact ⟨fun _ => by rw [if_neg hid], fun h => absurd h hid⟩
    have H1 : ∀ e' ∈ rest, ∀ y ∈ (retryUpdateEmail dc db e.id
        (planItem cfg dc.length ft st e.domainIndex (jit k)).1.1
        (planItem cfg dc.length ft st e.domainIndex (jit k)).1.2).emails,
        y.id = e'.id → y.domainIndex = e'.domainIndex := by
      intro e' he' y hy hid
      obtain ⟨x, hx, hxy⟩ := List.mem_map.mp hy
      by_cases hxe : x.id = e.id
      · exfalso
        have : y.id = x.id := by rw [← hxy, if_pos hxe]
        exact hpw.1 e' he' (by rw [← hid, this, hxe])
      · rw [if_neg hxe] at hxy
        subst hxy
        exact hdom e' (List.mem_cons_of_mem e he') x hx hid
    have F2 := ih _ ((planItem cfg dc.length ft st e.domainIndex (jit k)).2)
      (k + 1) hpw.2 H1
    refine forall₂_comp ?_ F1 F2
    intro a b c h1 h2
    constructor
    · rintro hnot
      have hne : a.id ≠ e.id := fun hh => hnot ⟨e, List.mem_cons_self e rest, hh.symm⟩
      have hb : b = a := h1.1 hne
      have : ¬ ∃ e' ∈ rest, e'.id = b.id := by
        rintro ⟨e', he', hbid⟩
        exact hnot ⟨e', List.mem_cons_of_mem e he', by rw [hbid, hb]⟩
      rw [h2.1 this, hb]
    · rintro ⟨e', he', hid⟩
      rcases List.mem_cons.mp he' with rfl | he'
      · obtain ⟨hdomeq, hb⟩ := h1.2 hid.symm
        have hbid : b.id = a.id := by rw [hb]
        have hnot : ¬ ∃ x ∈ rest, x.id = b.id := by
          rintro ⟨x, hx, hxid⟩
          exact hpw.1 x hx (by rw [hid, ← hbid, hxid])
        have hc : c = b := h2.1 hnot
        rw [hc, hb]
        refine ⟨rfl, rfl, ?_, ?_⟩
        · intro d0 had0
          have : e'.domainIndex = some d0 := by rw [← hdomeq, had0]
          simp only [hd, chooseDomain, this]
          rfl
        · exact ⟨_, _, rfl, rfl, rfl⟩
      · have hne : a.id ≠ e.id := by
          rw [← hid]
          exact fun hh => hpw.1 e' he' hh.symm
        have hb : b = a := h1.1 hne
        have hsel : ∃ x ∈ rest, x.id = b.id := ⟨e', he', by rw [hb, hid]⟩
        obtain ⟨hs, herr, hdm, d, t, hbd, hbs, hbf⟩ := h2.2 hsel
        refine ⟨hs, herr, ?_, d, t, hbd, hbs, hbf⟩
        intro d0 had0
        exact hdm d0 (by rw [hb, had0])

def c7Item : QueueItem :=
  { id := 1, campaignId := 1, toEmail := "a", fromEmail := some "old", subject := "s",
    body := "b", status := EStatus.failed, scheduledFor := some 5,
    domainIndex := some 3, errorMessage := some "err", sentAt := none }

def c7Campaign : Campaign :=
  { id := 1, name := "n", sender := "jeff_richmond",
    status := CStatus.scheduled, metadata := [] }

def c7DB : DB := ⟨[c7Item], [c7Campaign]⟩

/-- C7: retry-failed touches exactly this campaign's `failed` rows and, for
each one, sets `status = queued`, clears `error_message`, reuses a
pre-existing `domain_index`, writes the `from_email` matching the assigned
domain, and assigns a `scheduled_for` at least the domain's last
commitment plus `INTERVAL` (in-batch or from the snapshot), or at least
the working-window floor plus the item's jitter when the domain has no
commitment.  Concretely, a failed item pinned to domain 3 with no other
commitments is re-queued on domain 3 at the floor with the domain-3
`from_email`. -/
theorem C7_retry_failed_requeues :
    (∀ (cfg : Config) (db : DB) (c now : Nat) (jit : Nat → Nat) (camp : Campaign),
      db.campaigns.find? (fun x => x.id = c) = some camp →
      db.emails.Pairwise (fun a b => a.id ≠ b.id) →
      List.Forall₂ (fun a b =>
        ((¬ (a.campaignId = c ∧ a.status = EStatus.failed)) → b = a) ∧
        ((a.campaignId = c ∧ a.status = EStatus.failed) →
          b.status = EStatus.queued ∧ b.errorMessage = none ∧
          (∀ d0, a.domainIndex = some d0 → b.domainIndex = some d0) ∧
          ∃ d t, b.domainIndex = some d ∧ b.scheduledFor = some t ∧
            b.fromEmail = some (fromEmailFor
              (generate_domain_config camp.sender) d)))
        db.emails (process_retry_failed_task cfg db c now jit).emails)
    ∧ (∀ (cfg : Config) (pool ft : Nat) (st : PlanState) (j d0 : Nat),
        (planItem cfg pool ft st (some d0) j).1.1 = d0)
    ∧ (∀ (cfg : Config) (pool ft : Nat) (st : PlanState) (pre : Option Nat)
        (j d prev : Nat), chooseDomain st pre pool = d →
        st.domain_current_time d = some prev →
        prev + cfg.INTERVAL_MS ≤ (planItem cfg pool ft st pre j).1.2)
    ∧ (∀ (cfg : Config) (pool ft : Nat) (st : PlanState) (pre : Option Nat)
        (j d last : Nat), chooseDomain st pre pool = d →
        st.domain_current_time d = none →
        st.domain_last_scheduled d = some last →
        last + cfg.INTERVAL_MS ≤ (planItem cfg pool ft st pre j).1.2)
    ∧ (∀ (cfg : Config) (pool ft : Nat) (st : PlanState) (pre : Option Nat)
        (j d : Nat), chooseDomain st pre pool = d →
        st.domain_current_time d = none →
        st.domain_last_scheduled d = none →
        ft + j ≤ (planItem cfg pool ft st pre j).1.2)
    ∧ (process_retry_failed_task ⟨false, 9, 17, 210000⟩ c7DB 1 32400000
        (fun _ => 0)).emails =
      [{ c7Item with
          status := EStatus.queued
          domainIndex := some 3
          fromEmail := some "Jeff Richmond <jeff.richmond@join-ozlistings.com>"
          scheduledFor := some 32400000
          errorMessage := none }] := by
  refine ⟨?_, fun cfg pool ft st j d0 => rfl, ?_, ?_, ?_, by decide⟩
  · intro cfg db c now jit camp hf hpw
    simp only [process_retry_failed_task, hf]
    split
    · rename_i hemp
      refine List.forall₂_same.mpr fun x hx => ⟨fun _ => rfl, ?_⟩
      intro hsel
      have hmem : x ∈ db.emails.filter fun e =>
          e.campaignId = c ∧ e.status = EStatus.failed :=
        List.mem_filter.mpr ⟨hx, by simp [hsel.1, hsel.2]⟩
      rw [hemp] at hmem
      cases hmem
    · rename_i hne
      have hpwf : (db.emails.filter fun e =>
          e.campaignId = c ∧ e.status = EStatus.failed).Pairwise
            (fun a b => a.id ≠ b.id) :=
        List.Pairwise.sublist (List.filter_sublist db.emails) hpw
      have hdomf : ∀ e' ∈ (db.emails.filter fun e =>
          e.campaignId = c ∧ e.status = EStatus.failed), ∀ e ∈ db.emails,
          e.id = e'.id → e.domainIndex = e'.domainIndex := by
        intro e' he' e he hid
        have he'mem := (List.mem_filter.mp he').1
        rw [eq_of_mem_pairwise_ne hpw he he'mem hid]
      refine forall₂_imp_mem (retryLoop_spec cfg
        (generate_domain_config camp.sender)
        (get_start_time_in_timezone now cfg.WORKING_HOUR_START
          cfg.WORKING_HOUR_END true) jit _ db
        (initialPlanState (snapshotCommitments db.emails)) 0 hpwf hdomf) ?_
      intro a ha b hR
      constructor
      · intro hnsel
        refine hR.1 ?_
        rintro ⟨e', he', hid⟩
        obtain ⟨he'mem, hpred⟩ := List.mem_filter.mp he'
        have : e' = a := eq_of_mem_pairwise_ne hpw he'mem ha hid
        rw [this] at hpred
        simp only [decide_eq_true_eq] at hpred
        exact hnsel hpred
      · intro hsel
        exact hR.2 ⟨a, List.mem_filter.mpr ⟨ha, by simp [hsel.1, hsel.2]⟩, rfl⟩
  · intro cfg pool ft st pre j d prev hd hc
    rw [planItem_sched_cur cfg pool ft st pre j d prev hd hc]
    exact Nat.le_trans (Nat.le_add_right _ _) (adjust_ge _ _ _)
  · intro cfg pool ft st pre j d last hd hc hl
    rw [planItem_sched_last cfg pool ft st pre j d last hd hl hc]
    exact Nat.le_trans (Nat.le_add_right _ _) (adjust_ge _ _ _)
  · intro cfg pool ft st pre j d hd hc hl
    rw [planItem_sched_first cfg pool ft st pre j d hd hl hc]
    exact adjust_ge _ _ _

/-- Concrete instantiation of `C7_retry_failed_requeues`: a pinned domain
is reused and the schedule respects the spacing floor. -/
theorem C7_witness :
    (planItem ⟨false, 9, 17, 210000⟩ 28 32400000
        (initialPlanState fun _ => none) (some 3) 0).1.1 = 3 ∧
    32400000 + 0 ≤ (planItem ⟨false, 9, 17, 210000⟩ 28 32400000
        (initialPlanState fun _ => none) (some 3) 0).1.2 ∧
    61080000 + 210000 ≤ (planItem ⟨false, 9, 17, 210000⟩ 28 32400000
        (initialPlanState fun d => if d = 3 then some 61080000 else none)
        (some 3) 0).1.2 := by
  refine ⟨?_, ?_, ?_⟩
  · exact C7_retry_failed_requeues.2.1 ⟨false, 9, 17, 210000⟩ 28 32400000
      (initialPlanState fun _ => none) 0 3
  · exact C7_retry_failed_requeues.2.2.2.2.1 ⟨false, 9, 17, 210000⟩ 28 32400000
      (initialPlanState fun _ => none) (some 3) 0 3 rfl rfl rfl
  · exact C7_retry_failed_requeues.2.2.2.1 ⟨false, 9, 17, 210000⟩ 28 32400000
      (initialPlanState fun d => if d = 3 then some 61080000 else none)
      (some 3) 0 3 61080000 rfl rfl rfl

end Ozl
